import Mathlib

-- Batteries marks the arithmetic of `Rat` `@[irreducible]`, which keeps
-- `decide` from evaluating concrete rational amounts; expose it again for
-- the closed-instance computations below.
attribute [local semireducible] Rat.add Rat.mul Rat.sub Rat.inv

/-!
# Verification of the BankRecReceipts normalization-and-matching engine

A shallow embedding, in Lean 4, of the core functions of the bank
reconciliation engine: the amount/date normalizer, the bank record
builder with its three parsing paths, the greedy automatic matcher,
the smart-match scoring and subset-sum search, and the unmatch
operation.  JavaScript numbers are modelled as exact rationals (`ℚ`),
strings as `String`, arrays as `List`, and `null`/`undefined` as
`Option`/the empty string, matching how the engine actually consumes
its cell values (all cells arrive as strings from the CSV/XLSX
readers).  Functions that never inspect more than the truthiness of a
JavaScript `Date` keep the date abstract.
-/

/-! ## JavaScript string primitives -/

/-- `sub` occurs as a contiguous substring of `s`
(JavaScript `String.prototype.includes`). -/
def jsIncludes (s sub : String) : Bool :=
  decide (sub.data <:+: s.data)

/-- `String.prototype.trim` (kernel-reducible model; the engine only
ever feeds it ASCII cell text). -/
def jsTrim (s : String) : String :=
  ⟨((s.data.dropWhile Char.isWhitespace).reverse.dropWhile Char.isWhitespace).reverse⟩

/-- `String.prototype.toLowerCase` (ASCII). -/
def jsToLower (s : String) : String :=
  ⟨s.data.map Char.toLower⟩

/-- `String.prototype.startsWith`. -/
def jsStartsWith (s p : String) : Bool :=
  p.data.isPrefixOf s.data

/-- `String.prototype.endsWith`. -/
def jsEndsWith (s p : String) : Bool :=
  p.data.isSuffixOf s.data

/-- `String.prototype.split(c)` for a single-character separator. -/
def splitOnCharAux (c : Char) : List Char → List Char → List (List Char)
  | [], acc => [acc.reverse]
  | x :: xs, acc =>
      if x = c then acc.reverse :: splitOnCharAux c xs []
      else splitOnCharAux c xs (x :: acc)

def splitOnChar (c : Char) (s : String) : List String :=
  (splitOnCharAux c s.data []).map (fun l => ⟨l⟩)

/-- `String.prototype.replace(/\D/g, '')`: keep only the decimal digits. -/
def digitsOnly (s : String) : String :=
  ⟨s.data.filter Char.isDigit⟩

/-- JavaScript `a || b` on strings: the empty string is falsy. -/
def jsOr (a b : String) : String :=
  if a = "" then b else a

/-- JavaScript `a || b` on numbers: `0` is falsy. -/
def jsOrQ (a b : ℚ) : ℚ :=
  if a = 0 then b else a

/-- `row[i]` for a possibly negative or out-of-range index; missing
cells (`undefined`) are modelled as the empty string. -/
def cellAt (row : List String) (i : Int) : String :=
  if i < 0 then "" else row.getD i.toNat ""

/-- `String.prototype.lastIndexOf` for a single character
(`-1` when absent). -/
def lastIdxOfAux (c : Char) : List Char → Int → Int → Int
  | [], _, acc => acc
  | x :: xs, i, acc => lastIdxOfAux c xs (i + 1) (if x = c then i else acc)

def lastIdxOf (c : Char) (s : String) : Int :=
  lastIdxOfAux c s.data 0 (-1)

/-- Number of occurrences of a character (`str.match(/c/g).length`). -/
def countChar (c : Char) (s : String) : Nat :=
  s.data.count c

/-- `String.prototype.replace(c, r)` with a plain (non-global) pattern:
replace only the first occurrence. -/
def replaceFirstChar (c r : Char) : List Char → List Char
  | [] => []
  | x :: xs => if x = c then r :: xs else x :: replaceFirstChar c r xs

/-- Numeric value of a list of decimal digit characters. -/
def digitsToNat (l : List Char) : Nat :=
  l.foldl (fun acc c => acc * 10 + (c.toNat - '0'.toNat)) 0

/-- JavaScript `parseFloat` restricted to the strings this engine feeds
it (digit/dot strings, all signs having been stripped beforehand): the
longest prefix of the form `digits [ '.' digits ]` is read, `none`
standing for `NaN`. -/
def jsParseFloat (s : String) : Option ℚ :=
  let cs := s.data
  let d1 := cs.takeWhile Char.isDigit
  let rest := cs.dropWhile Char.isDigit
  let d2 := match rest with
    | c :: r => if c = '.' then r.takeWhile Char.isDigit else []
    | [] => []
  if d1.isEmpty ∧ d2.isEmpty then none
  else some ((digitsToNat d1 : ℚ) + (digitsToNat d2 : ℚ) / (10 : ℚ) ^ d2.length)

/-! ## `parseAmount` (locale-tolerant money parser of the front-end engine) -/

/-- Currency symbols stripped by `parseAmount`. -/
def isCurrencyChar (c : Char) : Bool :=
  c = '$' ∨ c = '€' ∨ c = '£' ∨ c = '¥' ∨ c = '₹'

/-- The separator-normalization step of `parseAmount`: decide which of
`.`/`,` is the decimal separator by comparing last positions, with the
single-comma heuristic (whose branch turns out to be unreachable: a
comma with no dot already satisfies `commaPos > dotPos`). -/
def normalizeSeparators (s : String) : String :=
  let dotCount := countChar '.' s
  let commaCount := countChar ',' s
  let dotPos := lastIdxOf '.' s
  let commaPos := lastIdxOf ',' s
  if commaPos > dotPos then
    -- European format: remove dots, then turn the first comma into a dot
    ⟨replaceFirstChar ',' '.' (s.data.filter (fun c => c ≠ '.'))⟩
  else if dotPos > commaPos then
    -- US format: remove the commas
    ⟨s.data.filter (fun c => c ≠ ',')⟩
  else if commaCount > 0 ∧ dotCount = 0 then
    -- single-separator heuristic: two digits after a lone comma ⇒ decimal
    match (splitOnChar ',' s).get? 1 with
    | some t =>
        if t.length = 2 then ⟨replaceFirstChar ',' '.' s.data⟩
        else ⟨s.data.filter (fun c => c ≠ ',')⟩
    | none => ⟨s.data.filter (fun c => c ≠ ',')⟩
  else s

/-- `parseAmount(value)` of the reconciliation engine: strips currency
symbols and whitespace, recognizes accounting parentheses, normalizes
separators, treats an odd number of embedded minus signs as negative,
and returns `0` instead of failing on unparseable input. -/
def parseAmount (value : String) : ℚ :=
  if value = "" then 0
  else
    let str := jsTrim value
    if str = "" then 0
    else
      let lowerStr := jsToLower str
      if lowerStr = "zero" ∨ lowerStr = "none" ∨ lowerStr = "n/a" ∨ lowerStr = "-" then 0
      else
        let str : String := ⟨str.data.filter (fun c => ¬ isCurrencyChar c ∧ ¬ c.isWhitespace)⟩
        let hasParens := jsStartsWith str "(" ∧ jsEndsWith str ")"
        let str : String := if hasParens then ⟨(str.data.drop 1).dropLast⟩ else str
        let str := normalizeSeparators str
        let str : String := ⟨str.data.filter (fun c => c.isDigit ∨ c = '.' ∨ c = '-')⟩
        let negativeCount := countChar '-' str
        let isNegative := negativeCount % 2 = 1
        let str : String := ⟨str.data.filter (fun c => c ≠ '-')⟩
        match jsParseFloat str with
        | none => 0
        | some amount => if isNegative ∨ hasParens then -|amount| else amount

/-! ### Facts about `parseAmount` (claim C4) -/

theorem lastIdxOfAux_not_mem (c : Char) :
    ∀ (l : List Char) (i acc : Int), c ∉ l → lastIdxOfAux c l i acc = acc := by
  intro l
  induction l with
  | nil => intro i acc _; rfl
  | cons x xs ih =>
      intro i acc h
      have hx : ¬ x = c := fun he => h (he ▸ List.mem_cons_self x xs)
      simp only [lastIdxOfAux, hx, if_neg hx]
      exact ih (i + 1) acc (fun hm => h (List.mem_cons_of_mem x hm))

theorem lastIdxOfAux_nonneg (c : Char) :
    ∀ (l : List Char) (i acc : Int), 0 ≤ acc → 0 ≤ i → 0 ≤ lastIdxOfAux c l i acc := by
  intro l
  induction l with
  | nil => intro i acc h _; exact h
  | cons x xs ih =>
      intro i acc hacc hi
      simp only [lastIdxOfAux]
      refine ih (i + 1) _ ?_ (by linarith)
      by_cases hx : x = c
      · simp [hx]; exact hi
      · simp [hx]; exact hacc

theorem lastIdxOfAux_mem_nonneg (c : Char) :
    ∀ (l : List Char) (i acc : Int), c ∈ l → 0 ≤ i → 0 ≤ lastIdxOfAux c l i acc := by
  intro l
  induction l with
  | nil => intro i acc h; exact absurd h (List.not_mem_nil c)
  | cons x xs ih =>
      intro i acc hmem hi
      simp only [lastIdxOfAux]
      by_cases hxs : c ∈ xs
      · exact ih (i + 1) _ hxs (by linarith)
      · have hx : x = c := by
          rcases List.mem_cons.mp hmem with h | h
          · exact h.symm
          · exact absurd h hxs
        rw [lastIdxOfAux_not_mem c xs (i + 1) _ hxs]
        simp [hx]
        exact hi

theorem countChar_pos_lastIdx_nonneg (c : Char) (s : String)
    (h : 0 < countChar c s) : 0 ≤ lastIdxOf c s := by
  have hmem : c ∈ s.data := List.count_pos_iff.mp h
  exact lastIdxOfAux_mem_nonneg c s.data 0 (-1) hmem le_rfl

theorem countChar_zero_lastIdx (c : Char) (s : String)
    (h : countChar c s = 0) : lastIdxOf c s = -1 := by
  have hmem : c ∉ s.data := by
    intro hm
    exact absurd h (Nat.pos_iff_ne_zero.mp (List.count_pos_iff.mpr hm))
  exact lastIdxOfAux_not_mem c s.data 0 (-1) hmem

/-- C4: the claim fails against the code, and the code contradicts its
own comment.  `parseAmount` is documented (both in the spec sentence and
in the in-code comment "Only commas, could be European decimal or US
thousands") to treat a lone comma with a non-two-digit tail as a
thousands separator, so `"1,234"` should yield `1234`.  The code instead
returns `1.234`: the comma-as-decimal branch fires whenever the last
comma position exceeds the last dot position, which includes every
string that has a comma and no dot at all (`lastIndexOf('.') = -1`), so
the documented single-separator heuristic branch is unreachable (third
conjunct).  The accounting-parenthesis scenario itself does hold:
`parseAmount "(1,234.56)" = -1234.56` (second conjunct). -/
theorem claim_C4_parseAmount_separator_bug :
    parseAmount "1,234" = 1234 / 1000 ∧
    parseAmount "(1,234.56)" = -(123456 / 100) ∧
    (∀ s : String, 0 < countChar ',' s → countChar '.' s = 0 →
      lastIdxOf '.' s < lastIdxOf ',' s) := by
  refine ⟨by decide, by decide, ?_⟩
  intro s hc hd
  have h1 : 0 ≤ lastIdxOf ',' s := countChar_pos_lastIdx_nonneg ',' s hc
  have h2 : lastIdxOf '.' s = -1 := countChar_zero_lastIdx '.' s hd
  rw [h2]
  linarith

/-- Witness for C4's universally quantified conjunct at a concrete
input. -/
theorem claim_C4_parseAmount_separator_bug_witness :
    lastIdxOf '.' "1,234" < lastIdxOf ',' "1,234" :=
  claim_C4_parseAmount_separator_bug.2.2 "1,234" (by decide) (by decide)

/-! ## Dates

A JavaScript `Date` object is truthy even when it is an "Invalid Date",
so `parseDate` returns `none` only for empty input.  No claim inspects
the numeric content of a constructed `Date` beyond what is kept here. -/

/-- The result of `new Date(...)` as the engine builds it: either from
the three `/`-separated fields of `parseDate`, from the `YYYYMMDD`
prefix of a headerless-export timestamp, or from a generic string. -/
inductive JsDate where
  | mdy (m d y : String)
  | ymd (y m d : Nat)
  | generic (s : String)
deriving DecidableEq, Repr

/-- `parseDate(dateStr)`: split on `/`; three parts become
`new Date(yyyy, mm-1, dd)`, anything else falls through to
`new Date(dateStr)` (a truthy object even when unparseable). -/
def parseDate (dateStr : String) : Option JsDate :=
  if dateStr = "" then none
  else
    match splitOnChar '/' dateStr with
    | [a, b, c] => some (JsDate.mdy a b c)
    | _ => some (JsDate.generic dateStr)

/-- `l` is a run of `lo` to `hi` decimal digits. -/
def digitRun (lo hi : Nat) (s : String) : Bool :=
  lo ≤ s.length ∧ s.length ≤ hi ∧ s.data.all Char.isDigit

/-- `isValidDate(dateStr)`: one of the three accepted concrete patterns
(`M/D/Y[Y[YY]]`, ISO `YYYY-MM-DD`, `MM-DD-YYYY`) after trimming. -/
def isValidDate (dateStr : String) : Bool :=
  if jsTrim dateStr = "" then false
  else
    let str := jsTrim dateStr
    let slashPat :=
      match splitOnChar '/' str with
      | [a, b, c] => digitRun 1 2 a && digitRun 1 2 b && digitRun 2 4 c
      | _ => false
    let isoPat :=
      match splitOnChar '-' str with
      | [a, b, c] => digitRun 4 4 a && digitRun 2 2 b && digitRun 2 2 c
      | _ => false
    let dashPat :=
      match splitOnChar '-' str with
      | [a, b, c] => digitRun 1 2 a && digitRun 1 2 b && digitRun 2 4 c
      | _ => false
    slashPat || isoPat || dashPat

/-! ## Excel serial dates (claim C6) -/

/-- Day number of 1899-12-30 (the Excel epoch that absorbs the 1900
leap-year bug) relative to 1970-01-01. -/
def excelEpochDays : Int := -25569

/-- The numeric branch of `parseExcelDate`: a number `v` strictly
between `30000` and `60000` becomes the instant `excelEpoch +
v · 86400000 ms`, i.e. the day offset `excelEpochDays + v` from
1970-01-01; anything else is `null`. -/
def parseExcelSerial (v : ℚ) : Option ℚ :=
  if 30000 < v ∧ v < 60000 then some ((excelEpochDays : ℚ) + v) else none

/-- Proleptic-Gregorian civil date from a day number relative to
1970-01-01 (the standard days-from-civil inverse); models what
JavaScript renders for the constructed `Date`.  Returns
`(year, month, day)`. -/
def civilFromDays (z0 : Int) : Int × Int × Int :=
  let z := z0 + 719468
  let era : Int := (if 0 ≤ z then z else z - 146096) / 146097
  let doe : Int := z - era * 146097
  let yoe : Int := (doe - doe / 1460 + doe / 36524 - doe / 146096) / 365
  let y : Int := yoe + era * 400
  let doy : Int := doe - (365 * yoe + yoe / 4 - yoe / 100)
  let mp : Int := (5 * doy + 2) / 153
  let d : Int := doy - (153 * mp + 2) / 5 + 1
  let m : Int := mp + (if mp < 10 then 3 else -9)
  (y + (if m ≤ 2 then 1 else 0), m, d)

/-! ### Claim C6: the serial-date window -/

/-- C6 counterexample: the claim admits the whole half-open interval
`[30000, 60000)`, but the code guards with a strict `value > 30000`, so
the left endpoint `30000` — inside the claimed interval — yields `null`
instead of a date. -/
theorem claim_C6_excel_left_endpoint :
    (30000 : ℚ) ≤ 30000 ∧ (30000 : ℚ) < 60000 ∧ parseExcelSerial 30000 = none := by
  refine ⟨le_rfl, by norm_num, ?_⟩
  simp [parseExcelSerial]

/-- C6 amended: for every numeric value strictly between `30000` and
`60000` the parser returns the instant lying exactly that many days
after the epoch 1899-12-30 (day `excelEpochDays` of the Unix calendar),
and `null` outside that open interval; serial `45000` falls in March of
2023. -/
theorem claim_C6_excel_serial :
    (∀ v : ℚ, 30000 < v → v < 60000 →
        parseExcelSerial v = some ((excelEpochDays : ℚ) + v)) ∧
    (∀ v : ℚ, ¬ (30000 < v ∧ v < 60000) → parseExcelSerial v = none) ∧
    (civilFromDays (excelEpochDays + 45000)).1 = 2023 := by
  refine ⟨?_, ?_, by decide⟩
  · intro v h1 h2
    simp [parseExcelSerial, h1, h2]
  · intro v h
    simp only [parseExcelSerial, if_neg h]

/-- Witness for C6 at concrete serial values. -/
theorem claim_C6_excel_serial_witness :
    parseExcelSerial 45000 = some 19431 ∧ parseExcelSerial 100 = none := by
  constructor
  · have h := claim_C6_excel_serial.1 45000 (by norm_num) (by norm_num)
    rw [h]
    norm_num [excelEpochDays]
  · exact claim_C6_excel_serial.2.1 100 (by norm_num)

/-! ## Bank record builder (claim C1)

The three bank parsing paths of the Record Builder: header-mapped
(`smartParseBankData`'s main loop), headerless timestamp-coded
(`parseHeaderlessBankFormat`), and data-only fallback
(`parseDataOnlyBankFormat`). -/

/-- A canonical bank transaction as the Record Builder emits it. -/
structure BankTransaction where
  transactionNumber : String := ""
  date : Option JsDate := none
  description : String := ""
  memo : String := ""
  amountCredit : ℚ := 0
  amountDebit : ℚ := 0
  balance : ℚ := 0
  checkNumber : String := ""
  amount : ℚ := 0
  isDebit : Bool := false
  rawRow : List String := []
deriving DecidableEq, Repr

instance : Inhabited BankTransaction := ⟨{}⟩

/-- The column-role map produced by `detectBankColumns`
(`-1` = column absent). -/
structure BankColumnMap where
  transactionNumber : Int := -1
  date : Int := -1
  description : Int := -1
  memo : Int := -1
  debit : Int := -1
  credit : Int := -1
  amount : Int := -1
  balance : Int := -1
  checkNumber : Int := -1
  fees : Int := -1
deriving DecidableEq, Repr

/-- One step of `detectBankColumns`' `forEach`: the ordered keyword
rules, first matching rule wins for the cell, later cells overwrite
earlier ones for the same role. -/
def detectBankColumnsStep (m : BankColumnMap) (idx : Int) (header : String) : BankColumnMap :=
  let h := jsTrim (jsToLower header)
  if jsIncludes h "date" && ! jsIncludes h "update" then { m with date := idx }
  else if jsIncludes h "transaction" && jsIncludes h "number" then { m with transactionNumber := idx }
  else if h = "description" || jsIncludes h "desc" then { m with description := idx }
  else if h = "memo" || jsIncludes h "note" || jsIncludes h "comment" then { m with memo := idx }
  else if jsIncludes h "debit" || h = "dr" || jsIncludes h "withdrawal" then { m with debit := idx }
  else if jsIncludes h "credit" || h = "cr" || jsIncludes h "deposit" then { m with credit := idx }
  else if h = "amount" || h = "amt" then { m with amount := idx }
  else if jsIncludes h "balance" || h = "bal" then { m with balance := idx }
  else if jsIncludes h "check" && jsIncludes h "number" then { m with checkNumber := idx }
  else if jsIncludes h "fee" || jsIncludes h "charge" then { m with fees := idx }
  else m

def detectBankColumns (headers : List String) : BankColumnMap :=
  (headers.enum).foldl (fun m p => detectBankColumnsStep m (p.1 : Int) p.2) {}

/-- Case-insensitive prefix test (used for the `(?:Check|Chk)` tail of
the check-number pattern). -/
def lowerPrefix (p : String) (l : List Char) : Bool :=
  p.data.isPrefixOf (l.map Char.toLower)

/-- First match of `/\*(\d{4,})\*(?:Check|Chk)/i` — the check number
embedded in a compound transaction-number field. -/
def checkNumFromTxn : List Char → Option String
  | [] => none
  | c :: rest =>
      if c = '*' then
        let d := rest.takeWhile Char.isDigit
        let after := rest.dropWhile Char.isDigit
        if 4 ≤ d.length then
          match after with
          | c2 :: a2 =>
              if c2 = '*' ∧ (lowerPrefix "check" a2 ∨ lowerPrefix "chk" a2) then some ⟨d⟩
              else checkNumFromTxn rest
          | [] => checkNumFromTxn rest
        else checkNumFromTxn rest
      else checkNumFromTxn rest

/-- A row is skipped when every cell is blank
(`row.every(cell => !cell || String(cell).trim() === '')`). -/
def rowAllBlank (row : List String) : Bool :=
  row.all (fun c => jsTrim c = "")

/-- The credit/debit netting chain of the header-mapped path, named for
the proofs: both cells present ⇒ net them; one present ⇒ that one
(signed); neither ⇒ the signed `amount` column when mapped, else `0`. -/
def smartBankNetAmount (credit debit : ℚ) (hasAmountCol : Bool) (amountCell : ℚ) : ℚ :=
  if credit > 0 ∧ debit > 0 then credit - debit
  else if credit > 0 then credit
  else if debit > 0 then -debit
  else if hasAmountCol then amountCell
  else 0

/-- The body of `smartParseBankData`'s data-row loop: build one
`BankTransaction` from a row under a column map, or skip the row. -/
def smartParseBankRow (cmap : BankColumnMap) (row : List String) : Option BankTransaction :=
  if rowAllBlank row then none
  else
    let dateValue := cellAt row cmap.date
    if dateValue = "" ∨ ¬ isValidDate dateValue then none
    else
      let rawCredit := parseAmount (jsOr (cellAt row cmap.credit) "0")
      let rawDebit := parseAmount (jsOr (cellAt row cmap.debit) "0")
      let credit := |rawCredit|
      let debit := |rawDebit|
      let amount : ℚ :=
        smartBankNetAmount credit debit (decide (0 ≤ cmap.amount))
          (parseAmount (jsOr (cellAt row cmap.amount) "0"))
      if amount = 0 then none
      else
        let checkNumber := jsOr (cellAt row cmap.checkNumber) ""
        let checkNumber :=
          if checkNumber = "" ∧ 0 ≤ cmap.transactionNumber then
            match checkNumFromTxn (cellAt row cmap.transactionNumber).data with
            | some d => d
            | none => checkNumber
          else checkNumber
        some {
          transactionNumber := jsOr (cellAt row cmap.transactionNumber) ""
          date := parseDate dateValue
          description := jsOr (cellAt row cmap.description) ""
          memo := jsOr (cellAt row cmap.memo) ""
          amountCredit := credit
          amountDebit := debit
          balance := parseAmount (jsOr (cellAt row cmap.balance) "0")
          checkNumber := checkNumber
          amount := |amount|
          isDebit := amount < 0
          rawRow := row }

/-- `/^(\d{4})(\d{2})(\d{2})/` on the compound timestamp: the leading
eight digits as year/month/day. -/
def timestampDate (s : String) : Option JsDate :=
  let l := s.data
  if 8 ≤ l.length ∧ (l.take 8).all Char.isDigit then
    some (JsDate.ymd (digitsToNat (l.take 4)) (digitsToNat ((l.drop 4).take 2))
      (digitsToNat ((l.drop 6).take 2)))
  else none

/-- One row of `parseHeaderlessBankFormat`: either the compound
`timestamp*amount*flag*checknum*description` first cell, or the
fallback fixed-column layout. -/
def parseHeaderlessRow (row : List String) : Option BankTransaction :=
  match row with
  | [] => none
  | first :: _ =>
    if first = "" then none
    else
      let firstCell := jsTrim first
      if firstCell = "" ∨ jsStartsWith firstCell "," then none
      else
        let parts := splitOnChar '*' firstCell
        if 4 ≤ parts.length then
          let timestamp := parts.getD 0 ""
          let amount := parseAmount (parts.getD 1 "")
          let checkNumber := parts.getD 3 ""
          let description := jsOr (parts.getD 4 "") ""
          let date :=
            match timestampDate timestamp with
            | some d => some d
            | none => if (row.getD 1 "") ≠ "" then parseDate (row.getD 1 "") else none
          if date.isSome ∧ amount ≠ 0 then
                some {
                  transactionNumber := jsOr checkNumber ""
                  date := date
                  description := jsOr description (jsOr (row.getD 2 "") "")
                  memo := jsOr (row.getD 3 "") ""
                  amountCredit := if amount > 0 then amount else 0
                  amountDebit := if amount < 0 then |amount| else 0
                  balance := parseAmount (jsOr (row.getD 6 "") "0")
                  checkNumber := jsOr checkNumber ""
                  amount := |amount|
                  isDebit := amount < 0
                  rawRow := row }
          else none
        else
          let dateValue := jsOr (row.getD 1 "") (row.getD 0 "")
          if isValidDate dateValue then
            let debit := parseAmount (jsOr (row.getD 4 "") "0")
            let credit := parseAmount (jsOr (row.getD 5 "") "0")
            let amount := if credit > 0 then credit else debit
            if amount ≠ 0 then
              some {
                transactionNumber := jsOr (row.getD 6 "") ""
                date := parseDate dateValue
                description := jsOr (row.getD 2 "") ""
                memo := jsOr (row.getD 3 "") ""
                amountCredit := credit
                amountDebit := debit
                balance := 0
                checkNumber := jsOr (row.getD 6 "") (jsOr (row.getD 7 "") "")
                amount := |amount|
                isDebit := debit > 0
                rawRow := row }
            else none
          else none

def parseHeaderlessBankFormat (rows : List (List String)) : List BankTransaction :=
  rows.filterMap parseHeaderlessRow

/-- `/^[\d.,$()\-\s]+$/`: the cell is made of money punctuation only. -/
def moneyLike (s : String) : Bool :=
  s ≠ "" && s.data.all (fun c =>
    c.isDigit || c = '.' || c = ',' || c = '$' || c = '(' || c = ')' || c = '-' || c.isWhitespace)

/-- One row of `parseDataOnlyBankFormat`: locate a date cell in the
first five columns, take the absolutely largest non-zero amount, and
the longest non-money non-date cell as description. -/
def parseDataOnlyRow (row : List String) : Option BankTransaction :=
  if row.length < 3 then none
  else
    match (row.take 5).find? (fun c => isValidDate c) with
    | none => none
    | some dateValue =>
      let amounts := row.enum.filterMap (fun p =>
        let v := parseAmount p.2
        if v ≠ 0 then some (p.1, v) else none)
      match amounts with
      | [] => none
      | a :: rest =>
        let mainAmount := rest.foldl (fun x y => if |x.2| > |y.2| then x else y) a
        let description := row.foldl (fun desc cell =>
          let c := jsTrim cell
          if desc.length < c.length ∧ ¬ moneyLike c ∧ ¬ isValidDate c then c else desc) ""
        some {
          transactionNumber := ""
          date := parseDate dateValue
          description := description
          memo := ""
          amountCredit := if mainAmount.2 > 0 then mainAmount.2 else 0
          amountDebit := if mainAmount.2 < 0 then |mainAmount.2| else 0
          balance := 0
          checkNumber := ""
          amount := |mainAmount.2|
          isDebit := mainAmount.2 < 0
          rawRow := row }

def parseDataOnlyBankFormat (rows : List (List String)) : List BankTransaction :=
  rows.filterMap parseDataOnlyRow

/-- A leading metadata row: at most one populated cell whose first cell
is an account/date-range/report/statement label or blank. -/
def isMetaRow (row : List String) : Bool :=
  let nonEmptyCells := (row.filter (fun c => jsTrim c ≠ "")).length
  let firstCell := jsTrim (jsToLower (row.headD ""))
  nonEmptyCells ≤ 1 &&
    (jsIncludes firstCell "account" || jsIncludes firstCell "date range" ||
     jsIncludes firstCell "report" || jsIncludes firstCell "statement" || firstCell = "")

/-- `startIdx` after the metadata-skipping loop: the length of the
maximal qualifying prefix, capped at ten rows. -/
def metaPrefixLen (rows : List (List String)) : Nat :=
  ((rows.take 10).takeWhile isMetaRow).length

/-- `/^\d{14}\[/`: the timestamp-coded headerless bank export marker. -/
def timestampPattern (s : String) : Bool :=
  let l := s.data
  (l.take 14).length = 14 && (l.take 14).all Char.isDigit && l.getD 14 ' ' = '['

/-- A row qualifying as the bank header row in the scan. -/
def isBankHeaderRow (row : List String) : Bool :=
  3 ≤ row.length &&
  1 < (row.filter (fun c => jsTrim c ≠ "")).length &&
  (let rowStr := jsToLower (String.intercalate "|" row)
   jsIncludes rowStr "date" &&
     (jsIncludes rowStr "amount" || jsIncludes rowStr "debit" || jsIncludes rowStr "credit"))

/-- The header-scanning loop: first qualifying row among the first
twenty, with its trimmed cells. -/
def findBankHeader (rows : List (List String)) : Option (Nat × List String) :=
  ((rows.take 20).enum.find? (fun p => isBankHeaderRow p.2)).map
    (fun p => (p.1, p.2.map jsTrim))

/-- `smartParseBankData(rows)`: skip metadata, dispatch to the
headerless parser on a timestamp-coded first cell, otherwise scan for a
header row and map its columns, falling back to the data-only
heuristic. -/
def smartParseBankData (rows : List (List String)) : List BankTransaction :=
  let cleanedRows := rows.drop (metaPrefixLen rows)
  if timestampPattern ((cleanedRows.headD []).headD "") ∧ (cleanedRows.headD []).headD "" ≠ "" then
    parseHeaderlessBankFormat cleanedRows
  else
    match findBankHeader cleanedRows with
    | some (i, headers) =>
        (cleanedRows.drop (i + 1)).filterMap (smartParseBankRow (detectBankColumns headers))
    | none => parseDataOnlyBankFormat cleanedRows


/-! ### Claim C1: the `amount`/`isDebit` invariant of built transactions -/

theorem abs_eq_max_splitCells (v : ℚ) (hnz : v ≠ 0) :
    |v| = max (if v > 0 then v else 0) (if v < 0 then |v| else 0) := by
  rcases lt_or_gt_of_ne hnz with hn | hp
  · rw [if_neg (asymm hn), if_pos hn]
    exact (max_eq_right (abs_nonneg v)).symm
  · rw [if_pos hp, if_neg (asymm hp), abs_of_pos hp]
    exact (max_eq_left hp.le).symm

theorem smartBankNetAmount_abs_max (credit debit : ℚ) (b : Bool) (f : ℚ)
    (hc : 0 ≤ credit) (hd : 0 ≤ debit)
    (hnb : ¬ (0 < credit ∧ 0 < debit)) (hone : 0 < credit ∨ 0 < debit) :
    |smartBankNetAmount credit debit b f| = max credit debit := by
  unfold smartBankNetAmount
  by_cases hcp : credit > 0
  · have hdp : ¬ debit > 0 := fun hdp => hnb ⟨hcp, hdp⟩
    have hd0 : debit = 0 := le_antisymm (not_lt.mp hdp) hd
    rw [if_neg (fun hb => hnb ⟨hb.1, hb.2⟩), if_pos hcp, abs_of_pos hcp, hd0]
    exact (max_eq_left hcp.le).symm
  · have hc0 : credit = 0 := le_antisymm (not_lt.mp hcp) hc
    have hdp : debit > 0 := hone.resolve_left hcp
    rw [if_neg (fun hb => hcp hb.1), if_neg hcp, if_pos hdp, abs_neg, abs_of_pos hdp, hc0]
    exact (max_eq_right hdp.le).symm

theorem smartParseBankRow_fields (cmap : BankColumnMap) (row : List String)
    (t : BankTransaction) (h : smartParseBankRow cmap row = some t) :
    0 < t.amount ∧ 0 ≤ t.amountCredit ∧ 0 ≤ t.amountDebit ∧
      (¬ (0 < t.amountCredit ∧ 0 < t.amountDebit) →
        (0 < t.amountCredit ∨ 0 < t.amountDebit) →
        t.amount = max t.amountCredit t.amountDebit) := by
  simp only [smartParseBankRow] at h
  split at h
  · exact absurd h (by simp)
  split at h
  · exact absurd h (by simp)
  split at h
  · exact absurd h (by simp)
  rename_i hamt
  injection h with h
  subst h
  refine ⟨abs_pos.mpr hamt, abs_nonneg _, abs_nonneg _, ?_⟩
  intro hnb hone
  exact smartBankNetAmount_abs_max _ _ _ _ (abs_nonneg _) (abs_nonneg _) hnb hone

theorem parseHeaderlessRow_fields (row : List String)
    (t : BankTransaction) (h : parseHeaderlessRow row = some t) :
    0 < t.amount ∧
      (0 ≤ t.amountCredit → 0 ≤ t.amountDebit →
        ¬ (0 < t.amountCredit ∧ 0 < t.amountDebit) →
        (0 < t.amountCredit ∨ 0 < t.amountDebit) →
        t.amount = max t.amountCredit t.amountDebit) := by
  rcases row with _ | ⟨first, rest⟩
  · exact absurd h (by simp [parseHeaderlessRow])
  simp only [parseHeaderlessRow] at h
  split at h
  · exact absurd h (by simp)
  split at h
  · exact absurd h (by simp)
  split at h
  -- compound `timestamp*amount*flag*checknum*description` branch: split the
  -- `row[1]` fallback inside `date`, the timestamp match, then the push guard
  · split at h
    all_goals
      repeat
        first
          | exact Option.noConfusion h
          | (rename_i hcond
             injection h with h
             subst h
             exact ⟨abs_pos.mpr hcond.2, fun _ _ _ _ => abs_eq_max_splitCells _ hcond.2⟩)
          | split at h
  -- fixed-column fallback branch
  · split at h
    · split at h
      -- `amount = credit` sub-branch
      · rename_i hcp
        split at h
        · rename_i hamt
          injection h with h
          subst h
          refine ⟨abs_pos.mpr hamt, ?_⟩
          intro hcn hdn hnb hone
          show |parseAmount (jsOr ((first :: rest).getD 5 "") "0")| =
            max (parseAmount (jsOr ((first :: rest).getD 5 "") "0"))
              (parseAmount (jsOr ((first :: rest).getD 4 "") "0"))
          have hdp : ¬ (0 : ℚ) < parseAmount (jsOr ((first :: rest).getD 4 "") "0") :=
            fun hdp => hnb ⟨hcp, hdp⟩
          have hd0 : parseAmount (jsOr ((first :: rest).getD 4 "") "0") = 0 :=
            le_antisymm (not_lt.mp hdp) hdn
          rw [abs_of_pos hcp, hd0]
          exact (max_eq_left hcp.le).symm
        · exact Option.noConfusion h
      -- `amount = debit` sub-branch
      · rename_i hcp
        split at h
        · rename_i hamt
          injection h with h
          subst h
          refine ⟨abs_pos.mpr hamt, ?_⟩
          intro hcn hdn hnb hone
          show |parseAmount (jsOr ((first :: rest).getD 4 "") "0")| =
            max (parseAmount (jsOr ((first :: rest).getD 5 "") "0"))
              (parseAmount (jsOr ((first :: rest).getD 4 "") "0"))
          have hc0 : parseAmount (jsOr ((first :: rest).getD 5 "") "0") = 0 :=
            le_antisymm (not_lt.mp hcp) hcn
          have hdp : (0 : ℚ) < parseAmount (jsOr ((first :: rest).getD 4 "") "0") :=
            hone.resolve_left hcp
          rw [abs_of_pos hdp, hc0]
          exact (max_eq_right hdp.le).symm
        · exact Option.noConfusion h
    · exact Option.noConfusion h

theorem foldl_absmax_mem (l : List (Nat × ℚ)) (a : Nat × ℚ) :
    l.foldl (fun x y => if |x.2| > |y.2| then x else y) a = a ∨
      l.foldl (fun x y => if |x.2| > |y.2| then x else y) a ∈ l := by
  induction l generalizing a with
  | nil => exact Or.inl rfl
  | cons y ys ih =>
      simp only [List.foldl_cons]
      rcases ih (if |a.2| > |y.2| then a else y) with h | h
      · rw [h]
        by_cases hc : |a.2| > |y.2|
        · rw [if_pos hc]; exact Or.inl rfl
        · rw [if_neg hc]; exact Or.inr (List.mem_cons_self _ _)
      · exact Or.inr (List.mem_cons_of_mem _ h)

theorem parseDataOnlyRow_fields (row : List String)
    (t : BankTransaction) (h : parseDataOnlyRow row = some t) :
    0 < t.amount ∧
      (¬ (0 < t.amountCredit ∧ 0 < t.amountDebit) →
        (0 < t.amountCredit ∨ 0 < t.amountDebit) →
        t.amount = max t.amountCredit t.amountDebit) := by
  simp only [parseDataOnlyRow] at h
  split at h
  · exact absurd h (by simp)
  split at h
  · exact absurd h (by simp)
  rename_i dateValue hfind
  split at h
  · exact absurd h (by simp)
  rename_i amounts a rest hsplit
  injection h with h
  subst h
  have hall : ∀ p : Nat × ℚ, p ∈ row.enum.filterMap (fun p =>
      let v := parseAmount p.2
      if v ≠ 0 then some (p.1, v) else none) → p.2 ≠ 0 := by
    intro p hp
    rcases List.mem_filterMap.mp hp with ⟨q, _, hq⟩
    simp only at hq
    split at hq
    · injection hq with hq
      subst hq
      assumption
    · exact absurd hq (by simp)
  have hmem : rest.foldl (fun x y => if |x.2| > |y.2| then x else y) a ∈ a :: rest := by
    rcases foldl_absmax_mem rest a with h | h
    · rw [h]; exact List.mem_cons_self _ _
    · exact List.mem_cons_of_mem _ h
  have hnz : (rest.foldl (fun x y => if |x.2| > |y.2| then x else y) a).2 ≠ 0 := by
    refine hall _ ?_
    rw [hsplit]
    exact hmem
  refine ⟨abs_pos.mpr hnz, ?_⟩
  intro _ _
  exact abs_eq_max_splitCells _ hnz

/-- C1 counterexample: a header-mapped row in which both the credit
cell (`"10"`) and the debit cell (`"3"`) are non-zero produces a
transaction with `amount = |credit - debit| = 7`, not
`max(amountCredit, amountDebit) = 10` — the netting branch of the
header-mapped path contradicts the claimed invariant exactly on the
both-cells-non-zero rows the claim singles out. -/
theorem claim_C1_amount_not_max :
    (smartParseBankData
        [["Date", "Description", "Debit", "Credit", "Balance"],
         ["01/15/2024", "Payment", "3", "10", "0"]]).map
      (fun t => (t.amountCredit, t.amountDebit, t.amount)) = [(10, 3, 7)] ∧
    ¬ ((7 : ℚ) = max 10 3) := ⟨by decide, by decide⟩

/-- C1 amended: every transaction from any of the three bank parsing
paths has `amount > 0` (so direction is never carried by the sign of
`amount`, only by `isDebit`), and `amount = max(amountCredit,
amountDebit)` holds whenever the credit/debit fields are non-negative
and exactly one of them is positive; rows with both cells non-zero net
them instead (header-mapped path) or keep only the credit (headerless
fixed-column path), and the signed amount-column fallback leaves both
fields zero. -/
theorem claim_C1_bank_amount_invariant :
    ∀ (rows : List (List String)) (t : BankTransaction), t ∈ smartParseBankData rows →
      0 < t.amount ∧
        (0 ≤ t.amountCredit → 0 ≤ t.amountDebit →
          ¬ (0 < t.amountCredit ∧ 0 < t.amountDebit) →
          (0 < t.amountCredit ∨ 0 < t.amountDebit) →
          t.amount = max t.amountCredit t.amountDebit) := by
  intro rows t hmem
  simp only [smartParseBankData] at hmem
  split at hmem
  · -- headerless timestamp-coded path
    unfold parseHeaderlessBankFormat at hmem
    rcases List.mem_filterMap.mp hmem with ⟨row, _, hrow⟩
    exact parseHeaderlessRow_fields row t hrow
  · split at hmem
    · -- header-mapped path
      rcases List.mem_filterMap.mp hmem with ⟨row, _, hrow⟩
      have h := smartParseBankRow_fields _ row t hrow
      exact ⟨h.1, fun _ _ => h.2.2.2⟩
    · -- data-only fallback path
      unfold parseDataOnlyBankFormat at hmem
      rcases List.mem_filterMap.mp hmem with ⟨row, _, hrow⟩
      have h := parseDataOnlyRow_fields row t hrow
      exact ⟨h.1, fun _ _ => h.2⟩

/-- Witness for C1's amended invariant at a concrete headerless-export
row. -/
theorem claim_C1_bank_amount_invariant_witness :
    0 < ((smartParseBankData
        [["20251205000000[-5:EST]*-6270.42*1*18969*Check Withdrawal",
          "12/5/2025"]]).headD default).amount ∧
    ((smartParseBankData
        [["20251205000000[-5:EST]*-6270.42*1*18969*Check Withdrawal",
          "12/5/2025"]]).headD default).amount =
      max ((smartParseBankData
        [["20251205000000[-5:EST]*-6270.42*1*18969*Check Withdrawal",
          "12/5/2025"]]).headD default).amountCredit
        ((smartParseBankData
        [["20251205000000[-5:EST]*-6270.42*1*18969*Check Withdrawal",
          "12/5/2025"]]).headD default).amountDebit := by
  have h := claim_C1_bank_amount_invariant
    [["20251205000000[-5:EST]*-6270.42*1*18969*Check Withdrawal", "12/5/2025"]]
    ((smartParseBankData
        [["20251205000000[-5:EST]*-6270.42*1*18969*Check Withdrawal",
          "12/5/2025"]]).headD default)
    (by decide)
  exact ⟨h.1, h.2 (by decide) (by decide) (by decide) (by decide)⟩

/-! ## The Automatic Matcher (claims C2, C3, C10) -/

/-- A canonical GL entry (the fields the matcher and the smart-match
scorers read). -/
structure GLEntry where
  accountNumber : String := ""
  description : String := ""
  accountDescription : String := ""
  date : Option JsDate := none
  refNumber : String := ""
  checkNumber : String := ""
  poNumber : String := ""
  debit : ℚ := 0
  credit : ℚ := 0
  amount : ℚ := 0
  isDebit : Bool := false
deriving DecidableEq, Repr

instance : Inhabited GLEntry := ⟨{}⟩

/-- The two recognized configuration options. -/
structure Settings where
  dateRange : ℚ := 7
  amountTolerance : ℚ := 0
deriving DecidableEq, Repr

/-- `calculateMatchScore(bankTx, glEntry)`:
amount (weight 0.5), check number (weight 0.3), date placeholder
(weight 0.2 at half strength). -/
def calculateMatchScore (st : Settings) (b : BankTransaction) (g : GLEntry) : ℚ :=
  let bankAmount := |b.amount|
  let glAmount := |g.amount|
  let amountDiff := |bankAmount - glAmount|
  let amountScore : ℚ :=
    if amountDiff ≤ st.amountTolerance then 5/10
    else if amountDiff < bankAmount * (1/100) then 5/10 * (8/10)
    else 0
  let checkScore : ℚ :=
    if b.checkNumber ≠ "" ∧ g.accountNumber ≠ "" then
      (let checkNum := digitsOnly b.checkNumber
       let acctNum := digitsOnly g.accountNumber
       if checkNum ≠ "" ∧ jsIncludes acctNum checkNum then 3/10 else 0)
    else 0
  let dateScore : ℚ :=
    if b.date.isSome ∧ st.dateRange > 0 then 2/10 * (1/2) else 0
  amountScore + checkScore + dateScore

/-- `getMatchType(bankTx, glEntry)`. -/
def getMatchType (st : Settings) (b : BankTransaction) (g : GLEntry) : String :=
  let types : List String :=
    (if abs (|b.amount| - |g.amount|) ≤ st.amountTolerance then ["Exact Amount"] else []) ++
    (if b.checkNumber ≠ "" ∧ g.accountNumber ≠ "" ∧
        jsIncludes g.accountNumber (digitsOnly b.checkNumber) then ["Check #"] else [])
  if types ≠ [] then String.intercalate " + " types else "Amount Match"

/-- One matched pair of the reconciliation output.  The code stores the
two records and their list indices (the latter via the
`matchedBankIndices`/`matchedGLIndices` sets). -/
structure MatchResultM where
  bankIdx : Nat
  glIdx : Nat
  bankTransaction : BankTransaction
  glEntry : GLEntry
  matchScore : ℚ
  matchType : String
  isManual : Bool
deriving DecidableEq, Repr

/-- The inner `forEach` of `performReconciliation`: scan the GL entries
in order, skip the already claimed ones, and keep the first entry whose
score strictly exceeds both the running best and the `0.5` threshold. -/
def selectBestGL (st : Settings) (b : BankTransaction) (claimed : List Nat) :
    List (Nat × GLEntry) → Option (Nat × GLEntry × ℚ) → Option (Nat × GLEntry × ℚ)
  | [], best => best
  | (i, g) :: rest, best =>
      if i ∈ claimed then selectBestGL st b claimed rest best
      else
        let score := calculateMatchScore st b g
        let bestScore : ℚ := match best with | none => 0 | some t => t.2.2
        if score > bestScore ∧ score > 5/10 then
          selectBestGL st b claimed rest (some (i, g, score))
        else selectBestGL st b claimed rest best

/-- The outer `forEach` of `performReconciliation`, with the claimed GL
index set and matched list threaded through. -/
def reconLoop (st : Settings) (gls : List GLEntry) :
    List (Nat × BankTransaction) → List Nat → List MatchResultM →
      List Nat × List MatchResultM
  | [], claimed, acc => (claimed, acc)
  | (bIdx, b) :: rest, claimed, acc =>
      match selectBestGL st b claimed gls.enum none with
      | some (gIdx, g, score) =>
          reconLoop st gls rest (claimed ++ [gIdx])
            (acc ++ [{ bankIdx := bIdx, glIdx := gIdx, bankTransaction := b,
                       glEntry := g, matchScore := score,
                       matchType := getMatchType st b g, isManual := false }])
      | none => reconLoop st gls rest claimed acc

/-- The matched/unmatched partition of `performReconciliation`
(unmatched sides are reported by original index, in input order, as the
collection loops do). -/
structure ReconOutput where
  matched : List MatchResultM
  unmatchedBank : List Nat
  unmatchedGL : List Nat
deriving DecidableEq, Repr

def performReconciliation (st : Settings) (banks : List BankTransaction)
    (gls : List GLEntry) : ReconOutput :=
  let r := reconLoop st gls banks.enum [] []
  { matched := r.2
    unmatchedBank := (List.range banks.length).filter
      (fun i => i ∉ r.2.map MatchResultM.bankIdx)
    unmatchedGL := (List.range gls.length).filter (fun i => i ∉ r.1) }

/-! ### Claim C2: matched/unmatched is a duplicate-free partition -/

theorem selectBestGL_some (st : Settings) (b : BankTransaction) (claimed : List Nat) :
    ∀ (ps : List (Nat × GLEntry)) (best : Option (Nat × GLEntry × ℚ)) (r : Nat × GLEntry × ℚ),
      selectBestGL st b claimed ps best = some r →
      best = some r ∨
        (r.1 ∉ claimed ∧ (r.1, r.2.1) ∈ ps ∧
          r.2.2 = calculateMatchScore st b r.2.1 ∧ r.2.2 > 5/10) := by
  intro ps
  induction ps with
  | nil => intro best r h; exact Or.inl h
  | cons p rest ih =>
      rcases p with ⟨i, g⟩
      intro best r h
      simp only [selectBestGL] at h
      split at h
      · rcases ih _ _ h with h' | h'
        · exact Or.inl h'
        · exact Or.inr ⟨h'.1, List.mem_cons_of_mem _ h'.2.1, h'.2.2⟩
      · rename_i hni
        split at h
        · rename_i hsc
          rcases ih _ _ h with h' | h'
          · injection h' with h'
            subst h'
            exact Or.inr ⟨hni, List.mem_cons_self _ _, rfl, hsc.2⟩
          · exact Or.inr ⟨h'.1, List.mem_cons_of_mem _ h'.2.1, h'.2.2⟩
        · rcases ih _ _ h with h' | h'
          · exact Or.inl h'
          · exact Or.inr ⟨h'.1, List.mem_cons_of_mem _ h'.2.1, h'.2.2⟩

theorem mem_enum_bounds {α : Type} (l : List α) (i : Nat) (a : α)
    (h : (i, a) ∈ l.enum) : i < l.length := by
  rw [List.enum_eq_zip_range] at h
  have := (List.of_mem_zip h).1
  exact List.mem_range.mp this

theorem reconLoop_spec (st : Settings) (gls : List GLEntry) :
    ∀ (ps : List (Nat × BankTransaction)) (claimed : List Nat) (acc : List MatchResultM),
      claimed.Nodup → (∀ j ∈ claimed, j < gls.length) →
      ∃ Δ : List MatchResultM,
        (reconLoop st gls ps claimed acc).2 = acc ++ Δ ∧
        (reconLoop st gls ps claimed acc).1 = claimed ++ Δ.map MatchResultM.glIdx ∧
        List.Sublist (Δ.map MatchResultM.bankIdx) (ps.map Prod.fst) ∧
        (reconLoop st gls ps claimed acc).1.Nodup ∧
        (∀ j ∈ (reconLoop st gls ps claimed acc).1, j < gls.length) ∧
        (∀ m ∈ Δ, m.matchScore = calculateMatchScore st m.bankTransaction m.glEntry ∧
          m.matchScore > 5/10) := by
  intro ps
  induction ps with
  | nil =>
      intro claimed acc hnd hbd
      exact ⟨[], by simp [reconLoop], by simp [reconLoop], by simp, by simpa [reconLoop], by simpa [reconLoop], by simp⟩
  | cons p rest ih =>
      rcases p with ⟨bIdx, b⟩
      intro claimed acc hnd hbd
      simp only [reconLoop]
      cases hsel : selectBestGL st b claimed gls.enum none with
      | none =>
          rcases ih claimed acc hnd hbd with ⟨Δ, h1, h2, h3, h4, h5, h6⟩
          exact ⟨Δ, h1, h2, h3.cons _, h4, h5, h6⟩
      | some r =>
          rcases r with ⟨gIdx, g, score⟩
          rcases selectBestGL_some st b claimed gls.enum none _ hsel with h' | h'
          · exact absurd h' (by simp)
          rcases h' with ⟨hni, hmem, hscore, hgt⟩
          have hlt : gIdx < gls.length := mem_enum_bounds gls gIdx g hmem
          have hnd' : (claimed ++ [gIdx]).Nodup := by
            simp [List.nodup_append, hnd, hni]
          have hbd' : ∀ j ∈ claimed ++ [gIdx], j < gls.length := by
            intro j hj
            rcases List.mem_append.mp hj with hj | hj
            · exact hbd j hj
            · rcases List.mem_singleton.mp hj with rfl
              exact hlt
          set m : MatchResultM :=
            { bankIdx := bIdx, glIdx := gIdx, bankTransaction := b,
              glEntry := g, matchScore := score,
              matchType := getMatchType st b g, isManual := false } with hm
          rcases ih (claimed ++ [gIdx]) (acc ++ [m]) hnd' hbd' with ⟨Δ, h1, h2, h3, h4, h5, h6⟩
          refine ⟨m :: Δ, ?_, ?_, ?_, h4, h5, ?_⟩
          · rw [h1, List.append_assoc]
            rfl
          · rw [h2, List.append_assoc]
            rfl
          · exact h3.cons₂ _
          · intro m' hm'
            rcases List.mem_cons.mp hm' with rfl | hm'
            · exact ⟨hscore, hgt⟩
            · exact h6 m' hm'

theorem nodup_bounded_filter_perm (n : Nat) (l : List Nat) (hs : l.Nodup)
    (hb : ∀ i ∈ l, i < n) :
    (l ++ (List.range n).filter (fun i => decide (i ∉ l))).Perm (List.range n) := by
  have h1 : ((List.range n).filter (fun i => decide (i ∈ l))).Perm l := by
    apply List.perm_of_nodup_nodup_toFinset_eq
    · exact (List.nodup_range n).filter _
    · exact hs
    · ext x
      simp only [List.mem_toFinset, List.mem_filter, List.mem_range, decide_eq_true_eq]
      constructor
      · exact fun h => h.2
      · exact fun h => ⟨hb x h, h⟩
  have h2 : ((List.range n).filter (fun i => decide (i ∈ l)) ++
      (List.range n).filter (fun i => decide (i ∉ l))).Perm (List.range n) := by
    have := List.filter_append_perm (fun i => decide (i ∈ l)) (List.range n)
    refine List.Perm.trans ?_ this
    apply List.Perm.append_left
    rw [List.filter_congr]
    intro x _
    simp
  exact List.Perm.trans (List.Perm.append_right _ h1.symm) h2

/-- C2: the Automatic Matcher's outputs partition the inputs.  The
matched bank indices together with `unmatchedBank` are a permutation of
all bank indices with no duplicates, likewise for GL, and no GL entry
is claimed by two bank transactions (the matched GL indices are
duplicate-free, so a claimed entry is never reconsidered). -/
theorem claim_C2_matcher_partition (st : Settings) (banks : List BankTransaction)
    (gls : List GLEntry) :
    ((performReconciliation st banks gls).matched.map MatchResultM.bankIdx ++
        (performReconciliation st banks gls).unmatchedBank).Perm
      (List.range banks.length) ∧
    ((performReconciliation st banks gls).matched.map MatchResultM.glIdx ++
        (performReconciliation st banks gls).unmatchedGL).Perm
      (List.range gls.length) ∧
    ((performReconciliation st banks gls).matched.map MatchResultM.bankIdx).Nodup ∧
    ((performReconciliation st banks gls).matched.map MatchResultM.glIdx).Nodup := by
  rcases reconLoop_spec st gls banks.enum [] [] (by simp) (by simp)
    with ⟨Δ, h1, h2, h3, h4, h5, _⟩
  simp only [List.nil_append] at h1 h2
  have hmatched : (performReconciliation st banks gls).matched = Δ := by
    simp only [performReconciliation, h1]
  have hbanksub : List.Sublist (Δ.map MatchResultM.bankIdx) (List.range banks.length) := by
    have := List.enum_map_fst banks
    rwa [this] at h3
  have hbanknodup : (Δ.map MatchResultM.bankIdx).Nodup :=
    hbanksub.nodup (List.nodup_range banks.length)
  have hbankbd : ∀ i ∈ Δ.map MatchResultM.bankIdx, i < banks.length := by
    intro i hi
    exact List.mem_range.mp (hbanksub.subset hi)
  have hglnodup : (Δ.map MatchResultM.glIdx).Nodup := by
    rw [← h2]; exact h4
  have hglbd : ∀ j ∈ Δ.map MatchResultM.glIdx, j < gls.length := by
    intro j hj
    exact h5 j (h2 ▸ hj)
  refine ⟨?_, ?_, ?_, ?_⟩
  · have := nodup_bounded_filter_perm banks.length (Δ.map MatchResultM.bankIdx)
      hbanknodup hbankbd
    simpa [performReconciliation, h1] using this
  · have := nodup_bounded_filter_perm gls.length (Δ.map MatchResultM.glIdx)
      hglnodup hglbd
    simpa [performReconciliation, h1, h2] using this
  · rw [hmatched]; exact hbanknodup
  · rw [hmatched]; exact hglnodup

/-! ### Claim C3: the weighted score and the check-number scenario -/

theorem digitsOnly_ne_empty (s : String) (h : digitsOnly s ≠ "") : s ≠ "" := by
  intro he
  subst he
  exact h rfl

theorem jsIncludes_empty_right (sub : String) (h : sub ≠ "") :
    jsIncludes "" sub = false := by
  rcases sub with ⟨l⟩
  rcases l with _ | ⟨c, cs⟩
  · exact absurd rfl h
  · simp only [jsIncludes, decide_eq_false_iff_not]
    intro hinf
    have : (c :: cs).length ≤ ([] : List Char).length := hinf.length_le
    simp at this

theorem scoreAmountEq (tol diff bank : ℚ) :
    (if diff ≤ tol then (5 : ℚ)/10 else if diff < bank * (1/100) then 5/10 * (8/10) else 0)
      = 5/10 * (if diff ≤ tol then 1 else if diff < bank * (1/100) then (8 : ℚ)/10 else 0) := by
  split_ifs <;> ring

theorem scoreDateEq (P : Prop) [Decidable P] :
    (if P then (2 : ℚ)/10 * (1/2) else 0) = 2/10 * (if P then (1 : ℚ)/2 else 0) := by
  split_ifs <;> ring

theorem scoreCheckEq (bc acct : String) :
    (if bc ≠ "" ∧ acct ≠ "" then
        (if digitsOnly bc ≠ "" ∧ jsIncludes (digitsOnly acct) (digitsOnly bc) then (3 : ℚ)/10
         else 0)
      else 0)
    = 3/10 * (if digitsOnly bc ≠ "" ∧ jsIncludes (digitsOnly acct) (digitsOnly bc) then (1 : ℚ)
              else 0) := by
  by_cases hCD : digitsOnly bc ≠ "" ∧ jsIncludes (digitsOnly acct) (digitsOnly bc) = true
  · have hA : bc ≠ "" := digitsOnly_ne_empty bc hCD.1
    have hB : acct ≠ "" := by
      intro he
      subst he
      rw [show digitsOnly "" = "" from rfl] at hCD
      rw [jsIncludes_empty_right _ hCD.1] at hCD
      exact Bool.false_ne_true hCD.2
    rw [if_pos ⟨hA, hB⟩, if_pos hCD, if_pos hCD]
    ring
  · rw [if_neg hCD]
    split_ifs with hAB <;> ring

/-- Modelled from the spec wording of §4.4, for comparison with
`calculateMatchScore`: score = `0.5·amountFrac + 0.3·checkFrac +
0.2·dateFrac`, full amount fraction within tolerance and `0.8` within
one percent of the bank amount; full check fraction when the bank check
digits are a substring of the GL account digits; half date fraction as
a placeholder when a date range is configured and the bank row has a
date. -/
def specMatchScore (st : Settings) (b : BankTransaction) (g : GLEntry) : ℚ :=
  let amountFrac : ℚ :=
    if abs (|b.amount| - |g.amount|) ≤ st.amountTolerance then 1
    else if abs (|b.amount| - |g.amount|) < |b.amount| * (1/100) then 8/10
    else 0
  let checkFrac : ℚ :=
    if digitsOnly b.checkNumber ≠ "" ∧
        jsIncludes (digitsOnly g.accountNumber) (digitsOnly b.checkNumber) then 1
    else 0
  let dateFrac : ℚ := if b.date.isSome ∧ st.dateRange > 0 then (1 : ℚ)/2 else 0
  5/10 * amountFrac + 3/10 * checkFrac + 2/10 * dateFrac

/-- C3: the Automatic Matcher's score is exactly the weighted sum
amount(0.5) + checkNumber(0.3) + date(0.2) with the claimed fractions
(first conjunct, against the spec-worded `specMatchScore`), and the
concrete scenario — bank `Check 4412` for `500.00` with check number
`4412` against GL account `4412` for `500.00` at tolerance `0` — is
matched by `performReconciliation` with `matchType` containing
`"Check #"` and score `0.8 ≥ 0.8`. -/
theorem claim_C3_weighted_score_scenario :
    (∀ (st : Settings) (b : BankTransaction) (g : GLEntry),
        calculateMatchScore st b g = specMatchScore st b g) ∧
    ((performReconciliation { dateRange := 0, amountTolerance := 0 }
        [{ date := parseDate "01/15/2024", description := "Check 4412",
           amount := 500, checkNumber := "4412" }]
        [{ accountNumber := "4412", amount := 500 }]).matched.map
      (fun m => (m.bankIdx, m.glIdx, m.matchScore, m.matchType)) =
        [(0, 0, 4/5, "Exact Amount + Check #")]) ∧
    jsIncludes "Exact Amount + Check #" "Check #" = true ∧
    (4 : ℚ)/5 ≥ 8/10 := by
  refine ⟨?_, by decide, by decide, by norm_num⟩
  intro st b g
  simp only [calculateMatchScore, specMatchScore]
  rw [scoreAmountEq, scoreCheckEq, scoreDateEq]

/-! ### Claim C10: amount agreement alone never auto-matches -/

/-- The condition under which `calculateMatchScore` awards the
check-number weight. -/
def checkSubFires (b : BankTransaction) (g : GLEntry) : Prop :=
  b.checkNumber ≠ "" ∧ g.accountNumber ≠ "" ∧
    digitsOnly b.checkNumber ≠ "" ∧
    jsIncludes (digitsOnly g.accountNumber) (digitsOnly b.checkNumber) = true

instance (b : BankTransaction) (g : GLEntry) : Decidable (checkSubFires b g) := by
  unfold checkSubFires
  infer_instance

instance : Inhabited MatchResultM :=
  ⟨{ bankIdx := 0, glIdx := 0, bankTransaction := default, glEntry := default,
     matchScore := 0, matchType := "", isManual := false }⟩

/-- C10: with `dateRange = 0` (or a date-less bank row) and no
check-number substring hit, `calculateMatchScore` cannot exceed `0.5`
(first conjunct); since acceptance needs a strict `score > 0.5`, every
pair the matcher accepts under `dateRange = 0` must have fired the
check-number sub-score — amount agreement alone never auto-matches
(second conjunct). -/
theorem claim_C10_amount_alone_never_matches :
    (∀ (st : Settings) (b : BankTransaction) (g : GLEntry),
        (st.dateRange = 0 ∨ b.date = none) → ¬ checkSubFires b g →
        calculateMatchScore st b g ≤ 5/10) ∧
    (∀ (st : Settings) (banks : List BankTransaction) (gls : List GLEntry),
        st.dateRange = 0 →
        ∀ m ∈ (performReconciliation st banks gls).matched,
          checkSubFires m.bankTransaction m.glEntry) := by
  have hbound : ∀ (st : Settings) (b : BankTransaction) (g : GLEntry),
      (st.dateRange = 0 ∨ b.date = none) → ¬ checkSubFires b g →
      calculateMatchScore st b g ≤ 5/10 := by
    intro st b g hdate hcheck
    unfold calculateMatchScore
    have hdatez : ¬ (b.date.isSome ∧ st.dateRange > 0) := by
      rcases hdate with h | h
      · intro hc
        rw [h] at hc
        exact absurd hc.2 (lt_irrefl 0)
      · intro hc
        rw [h] at hc
        simp at hc
    have hcheckz : (if b.checkNumber ≠ "" ∧ g.accountNumber ≠ "" then
        (if digitsOnly b.checkNumber ≠ "" ∧
            jsIncludes (digitsOnly g.accountNumber) (digitsOnly b.checkNumber) then (3 : ℚ)/10
         else 0)
      else 0) = 0 := by
      split_ifs with hAB hCD
      · exact absurd ⟨hAB.1, hAB.2, hCD.1, hCD.2⟩ hcheck
      · rfl
      · rfl
    rw [hcheckz, if_neg hdatez]
    dsimp only
    split_ifs with h1 h2 <;> norm_num
  refine ⟨hbound, ?_⟩
  intro st banks gls hdr m hm
  rcases reconLoop_spec st gls banks.enum [] [] (by simp) (by simp)
    with ⟨Δ, h1, _, _, _, _, h6⟩
  simp only [List.nil_append] at h1
  have hmΔ : m ∈ Δ := by
    have : (performReconciliation st banks gls).matched = Δ := by
      simp only [performReconciliation, h1]
    rwa [this] at hm
  rcases h6 m hmΔ with ⟨hs, hgt⟩
  by_contra hnc
  have := hbound st m.bankTransaction m.glEntry (Or.inl hdr) hnc
  rw [← hs] at this
  linarith

/-- Witness for C10 at concrete inputs: equal amounts with no check
numbers score exactly `0.5` and are below the threshold; a pair the
matcher does accept under `dateRange = 0` carries a check-number hit. -/
theorem claim_C10_amount_alone_never_matches_witness :
    calculateMatchScore { dateRange := 0, amountTolerance := 0 }
      { amount := 100 } { amount := 100, accountNumber := "9" } ≤ 5/10 ∧
    checkSubFires
      (((performReconciliation { dateRange := 0, amountTolerance := 0 }
          [{ amount := 500, checkNumber := "4412" }]
          [{ accountNumber := "4412", amount := 500 }]).matched.headD
            default).bankTransaction)
      (((performReconciliation { dateRange := 0, amountTolerance := 0 }
          [{ amount := 500, checkNumber := "4412" }]
          [{ accountNumber := "4412", amount := 500 }]).matched.headD
            default).glEntry) := by
  constructor
  · exact claim_C10_amount_alone_never_matches.1 _ _ _ (Or.inl rfl) (by decide)
  · exact claim_C10_amount_alone_never_matches.2
      { dateRange := 0, amountTolerance := 0 }
      [{ amount := 500, checkNumber := "4412" }]
      [{ accountNumber := "4412", amount := 500 }] rfl
      ((performReconciliation { dateRange := 0, amountTolerance := 0 }
          [{ amount := 500, checkNumber := "4412" }]
          [{ accountNumber := "4412", amount := 500 }]).matched.headD default)
      (by decide)

/-! ## Smart-match reference scoring (claim C7) -/

/-- `s.slice(-4)`: the last at-most-four characters. -/
def lastFour (s : String) : String :=
  ⟨s.data.drop (s.data.length - 4)⟩

/-- First match of `/PO[:#]?\s*([\d-]+)/i` at the head of the
character list. -/
def poMatchAt (l : List Char) : Option String :=
  match l with
  | p :: o :: rest =>
      if p.toLower = 'p' ∧ o.toLower = 'o' then
        let rest2 := match rest with
          | c :: r => if c = ':' ∨ c = '#' then r else rest
          | [] => rest
        let rest3 := rest2.dropWhile Char.isWhitespace
        let cap := rest3.takeWhile (fun c => c.isDigit ∨ c = '-')
        if cap ≠ [] then some ⟨cap⟩ else none
      else none
  | _ => none

/-- `desc.match(/PO[:#]?\s*([\d-]+)/i)`: first match anywhere, captured
group. -/
def extractPO : List Char → Option String
  | [] => none
  | c :: rest =>
      match poMatchAt (c :: rest) with
      | some s => some s
      | none => extractPO rest

/-- `calculateRefScore(bankTx, glEntry)`, on the canonical records. -/
def calculateRefScore (b : BankTransaction) (g : GLEntry) : ℚ :=
  let bankCheck := digitsOnly b.checkNumber
  let glCheck := digitsOnly (jsOr g.checkNumber g.refNumber)
  let glAccount := digitsOnly g.accountNumber
  if 3 ≤ bankCheck.length ∧ glCheck ≠ "" ∧ glCheck = bankCheck then 1
  else if 3 ≤ bankCheck.length ∧ glAccount ≠ "" ∧ jsIncludes glAccount bankCheck then 9/10
  else if 3 ≤ bankCheck.length ∧ glCheck ≠ "" ∧ lastFour glCheck = lastFour bankCheck then 6/10
  else
    let bankDesc := b.description ++ " " ++ b.memo
    let glDesc := g.description
    match extractPO bankDesc.data, extractPO glDesc.data with
    | some bp, some gp => if bp = gp then 8/10 else 0
    | _, _ => 0

/-- The reference sub-score exactly as the claim words it: exact match
1.0, substring-of-account 0.9, matching last four digits 0.6, matching
PO numbers 0.8, else 0 — with no minimum length on the bank check
digits.  Modelled from the claim for comparison with
`calculateRefScore`. -/
def claimRefScore (b : BankTransaction) (g : GLEntry) : ℚ :=
  let bankCheck := digitsOnly b.checkNumber
  let glCheck := digitsOnly (jsOr g.checkNumber g.refNumber)
  let glAccount := digitsOnly g.accountNumber
  if bankCheck ≠ "" ∧ glCheck = bankCheck then 1
  else if bankCheck ≠ "" ∧ jsIncludes glAccount bankCheck then 9/10
  else if bankCheck ≠ "" ∧ glCheck ≠ "" ∧ lastFour glCheck = lastFour bankCheck then 6/10
  else
    match extractPO (b.description ++ " " ++ b.memo).data, extractPO g.description.data with
    | some bp, some gp => if bp = gp then 8/10 else 0
    | _, _ => 0

/-! ### Claim C7: the reference sub-score tiers -/

/-- C7 counterexample: two-digit check numbers.  With bank check digits
`"12"` equal to the GL check digits, the claim's tier list says the
exact-match tier awards `1.0`, but the code guards every check tier
with `bankCheck.length >= 3` and returns `0`. -/
theorem claim_C7_short_check_counterexample :
    calculateRefScore { checkNumber := "12" } { checkNumber := "12" } = 0 ∧
    claimRefScore { checkNumber := "12" } { checkNumber := "12" } = 1 ∧
    (0 : ℚ) ≠ 1 := ⟨by decide, by decide, by norm_num⟩

/-- C7 amended: the claimed tiers — 1.0 exact check match, 0.9 bank
digits a substring of account digits, 0.6 equal last four digits, 0.8
equal extracted PO numbers, 0 otherwise, in that priority order — hold
exactly when the bank check digits are at least three characters long
(first conjunct); with shorter bank check digits only the PO tier
remains (second conjunct). -/
theorem claim_C7_ref_score_tiers :
    (∀ (b : BankTransaction) (g : GLEntry), 3 ≤ (digitsOnly b.checkNumber).length →
        calculateRefScore b g = claimRefScore b g) ∧
    (∀ (b : BankTransaction) (g : GLEntry), (digitsOnly b.checkNumber).length < 3 →
        calculateRefScore b g =
          (match extractPO (b.description ++ " " ++ b.memo).data,
              extractPO g.description.data with
            | some bp, some gp => if bp = gp then (8 : ℚ)/10 else 0
            | _, _ => 0)) := by
  constructor
  · intro b g h3
    have hk : digitsOnly b.checkNumber ≠ "" := by
      intro he
      rw [he] at h3
      simp [String.length] at h3
    simp only [calculateRefScore, claimRefScore]
    have e1 : (3 ≤ (digitsOnly b.checkNumber).length ∧
          digitsOnly (jsOr g.checkNumber g.refNumber) ≠ "" ∧
          digitsOnly (jsOr g.checkNumber g.refNumber) = digitsOnly b.checkNumber) ↔
        (digitsOnly b.checkNumber ≠ "" ∧
          digitsOnly (jsOr g.checkNumber g.refNumber) = digitsOnly b.checkNumber) := by
      constructor
      · rintro ⟨_, _, hEq⟩
        exact ⟨hk, hEq⟩
      · rintro ⟨_, hEq⟩
        exact ⟨h3, fun hc => hk (hEq.symm.trans hc), hEq⟩
    have e2 : (3 ≤ (digitsOnly b.checkNumber).length ∧
          digitsOnly g.accountNumber ≠ "" ∧
          jsIncludes (digitsOnly g.accountNumber) (digitsOnly b.checkNumber) = true) ↔
        (digitsOnly b.checkNumber ≠ "" ∧
          jsIncludes (digitsOnly g.accountNumber) (digitsOnly b.checkNumber) = true) := by
      constructor
      · rintro ⟨_, _, hIncl⟩
        exact ⟨hk, hIncl⟩
      · rintro ⟨_, hIncl⟩
        refine ⟨h3, ?_, hIncl⟩
        intro he
        rw [he, jsIncludes_empty_right _ hk] at hIncl
        exact Bool.false_ne_true hIncl
    have e3 : (3 ≤ (digitsOnly b.checkNumber).length ∧
          digitsOnly (jsOr g.checkNumber g.refNumber) ≠ "" ∧
          lastFour (digitsOnly (jsOr g.checkNumber g.refNumber)) =
            lastFour (digitsOnly b.checkNumber)) ↔
        (digitsOnly b.checkNumber ≠ "" ∧
          digitsOnly (jsOr g.checkNumber g.refNumber) ≠ "" ∧
          lastFour (digitsOnly (jsOr g.checkNumber g.refNumber)) =
            lastFour (digitsOnly b.checkNumber)) := by
      constructor
      · rintro ⟨_, hne, hEq⟩
        exact ⟨hk, hne, hEq⟩
      · rintro ⟨_, hne, hEq⟩
        exact ⟨h3, hne, hEq⟩
    exact if_congr e1 rfl (if_congr e2 rfl (if_congr e3 rfl rfl))
  · intro b g hlt
    simp only [calculateRefScore]
    rw [if_neg (fun hc => absurd hc.1 (not_le.mpr hlt)),
      if_neg (fun hc => absurd hc.1 (not_le.mpr hlt)),
      if_neg (fun hc => absurd hc.1 (not_le.mpr hlt))]

/-- Witness for C7: a long check number exercises the substring tier in
both the code and the claim's formulation, and a short one falls back
to the PO tier. -/
theorem claim_C7_ref_score_tiers_witness :
    calculateRefScore { checkNumber := "4412" } { accountNumber := "994412" } =
      claimRefScore { checkNumber := "4412" } { accountNumber := "994412" } ∧
    calculateRefScore { checkNumber := "12", description := "inv PO 25-1" }
      { description := "PO: 25-1" } = 8/10 := by
  constructor
  · exact claim_C7_ref_score_tiers.1 _ _ (by decide)
  · exact (claim_C7_ref_score_tiers.2
      { checkNumber := "12", description := "inv PO 25-1" }
      { description := "PO: 25-1" } (by decide)).trans (by decide)

/-! ## The text-number parser (`textNumberParser.js`, claim C5) -/

/-- `[A-Za-z0-9_]`, the regex `\w` class, as relevant for the `\b` word
boundaries of the filler-word removals. -/
def isWordChar (c : Char) : Bool :=
  c.isAlpha || c.isDigit || c = '_'

/-- Length matched at the head of `l` by `w` + optional plural `s` +
trailing word boundary (the pattern tail of `/\bWORDs?\b/gi` on the
already-lowercased text). -/
def matchWordAt (w : List Char) (optPlural : Bool) (l : List Char) : Option Nat :=
  let boundaryAfter : List Char → Bool := fun r =>
    match r with
    | [] => true
    | c :: _ => ! isWordChar c
  if optPlural ∧ (w ++ ['s']).isPrefixOf l ∧ boundaryAfter (l.drop (w.length + 1)) then
    some (w.length + 1)
  else if w.isPrefixOf l ∧ boundaryAfter (l.drop w.length) then some w.length
  else none

/-- `String.replace(/\bWORDs?\b/gi, '')` on a lowercased string:
remove every boundary-delimited occurrence, scanning left to right.
The fuel starts at the list length and each step consumes at least one
character, so it never runs out. -/
def removeWordGo (w : List Char) (optPlural : Bool) :
    Nat → Option Char → List Char → List Char
  | 0, _, l => l
  | _ + 1, _, [] => []
  | n + 1, prev, c :: rest =>
      let boundaryBefore : Bool :=
        match prev with
        | none => true
        | some p => ! isWordChar p
      match (if boundaryBefore then matchWordAt w optPlural (c :: rest) else none) with
      | some k =>
          removeWordGo w optPlural n (((c :: rest).take k).getLastD c) ((c :: rest).drop k)
      | none => c :: removeWordGo w optPlural n (some c) rest

def removeWord (w : String) (optPlural : Bool) (s : String) : String :=
  ⟨removeWordGo w.data optPlural s.data.length none s.data⟩

/-- `.replace(/\s+/g, ' ')` combined with the final `.trim()`:
whitespace runs collapse to single spaces with none at the ends. -/
def collapseSpaces (s : String) : String :=
  String.intercalate " " ((s.data.splitOnP Char.isWhitespace).map
    (fun l => (⟨l⟩ : String)) |>.filter (fun w => w ≠ ""))

/-- The `ONES` table. -/
def onesTable : List (String × ℚ) :=
  [("zero", 0), ("one", 1), ("two", 2), ("three", 3), ("four", 4), ("five", 5),
   ("six", 6), ("seven", 7), ("eight", 8), ("nine", 9), ("ten", 10), ("eleven", 11),
   ("twelve", 12), ("thirteen", 13), ("fourteen", 14), ("fifteen", 15), ("sixteen", 16),
   ("seventeen", 17), ("eighteen", 18), ("nineteen", 19)]

/-- The `TENS` table (including the `fourty` misspelling). -/
def tensTable : List (String × ℚ) :=
  [("twenty", 20), ("thirty", 30), ("forty", 40), ("fourty", 40), ("fifty", 50),
   ("sixty", 60), ("seventy", 70), ("eighty", 80), ("ninety", 90)]

/-- The `SCALES` table. -/
def scalesTable : List (String × ℚ) :=
  [("hundred", 100), ("thousand", 1000), ("million", 1000000),
   ("billion", 1000000000), ("trillion", 1000000000000)]

/-- The `ORDINAL_MAP` table. -/
def ordinalTable : List (String × ℚ) :=
  [("first", 1), ("second", 2), ("third", 3), ("fourth", 4), ("fifth", 5),
   ("sixth", 6), ("seventh", 7), ("eighth", 8), ("ninth", 9), ("tenth", 10),
   ("eleventh", 11), ("twelfth", 12), ("thirteenth", 13), ("fourteenth", 14),
   ("fifteenth", 15), ("sixteenth", 16), ("seventeenth", 17), ("eighteenth", 18),
   ("nineteenth", 19), ("twentieth", 20), ("thirtieth", 30), ("fortieth", 40),
   ("fiftieth", 50), ("sixtieth", 60), ("seventieth", 70), ("eightieth", 80),
   ("ninetieth", 90), ("hundredth", 100), ("thousandth", 1000), ("millionth", 1000000)]

/-- `/^(\d+)(?:st|nd|rd|th)$/` — a numeric ordinal like `3rd`. -/
def numericOrdinal (w : String) : Option ℚ :=
  let d := w.data.takeWhile Char.isDigit
  let suffix := w.data.dropWhile Char.isDigit
  if d ≠ [] ∧ (suffix = ['s', 't'] ∨ suffix = ['n', 'd'] ∨ suffix = ['r', 'd'] ∨
      suffix = ['t', 'h']) then
    some (digitsToNat d : ℚ)
  else none

/-- One iteration of `parseTemplate`'s word loop: ones/teens, tens,
hyphenated compounds (unreachable after the hyphen-to-space
replacement, but kept faithful to the source), the special `hundred`
rule that multiplies without committing, committing scale words,
numeric ordinals, and bare digit runs; unrecognized words are skipped.
State: (running total, current subtotal, a number word was found). -/
def textNumberStep (st : ℚ × ℚ × Bool) (word : String) : ℚ × ℚ × Bool :=
  let (result, current, found) := st
  match onesTable.lookup word with
  | some v => (result, current + v, true)
  | none =>
    match tensTable.lookup word with
    | some v => (result, current + v, true)
    | none =>
      match (match splitOnChar '-' word with
             | [a, b] =>
                 match tensTable.lookup a, onesTable.lookup b with
                 | some ta, some ob =>
                     if word.data.contains '-' then some (ta + ob) else none
                 | _, _ => none
             | _ => none) with
      | some v => (result, current + v, true)
      | none =>
        if word = "hundred" then
          (result, if current = 0 then 100 else current * 100, true)
        else
          match scalesTable.lookup word with
          | some sc =>
              let current := if current = 0 then 1 else current
              (result + current * sc, 0, true)
          | none =>
            match numericOrdinal word with
            | some v => (result, current + v, true)
            | none =>
              if word ≠ "" ∧ word.data.all Char.isDigit then
                (result, current + (digitsToNat word.data : ℚ), true)
              else (result, current, found)

/-- `parseTextNumber(text)` of `textNumberParser.js`. -/
def parseTextNumber (text : String) : Option ℚ :=
  if text = "" then none
  else
    let normalized := jsTrim (jsToLower text)
    let isNegative := jsStartsWith normalized "negative " ∨
      jsStartsWith normalized "minus " ∨ jsStartsWith normalized "-"
    let normalized :=
      if isNegative then
        let n1 : List Char :=
          if "negative".data.isPrefixOf normalized.data ∧
              ((normalized.data.drop 8).headD 'x').isWhitespace then
            (normalized.data.drop 8).dropWhile Char.isWhitespace
          else normalized.data
        let n2 : List Char :=
          if ("minus".data.isPrefixOf n1 ∧ ((n1.drop 5).headD 'x').isWhitespace) then
            (n1.drop 5).dropWhile Char.isWhitespace
          else n1
        let n3 : List Char :=
          match n2 with
          | '-' :: r => r.dropWhile Char.isWhitespace
          | _ => n2
        (⟨n3⟩ : String)
      else normalized
    let normalized := removeWord "and" false normalized
    let normalized := removeWord "dollar" true normalized
    let normalized := removeWord "cent" true normalized
    let normalized : String := ⟨normalized.data.map
      (fun c => if c = ',' ∨ c = '-' then ' ' else c)⟩
    let normalized := collapseSpaces normalized
    if normalized ≠ "" ∧ normalized.data.all (fun c => c.isDigit ∨ c = '.') then
      match jsParseFloat normalized with
      | none => none
      | some v => some (if isNegative then -v else v)
    else
      match ordinalTable.lookup normalized with
      | some v => some (if isNegative then -v else v)
      | none =>
        let words := (splitOnChar ' ' normalized).filter (fun w => w.length > 0)
        if words = [] then none
        else
          let r := words.foldl textNumberStep (0, 0, false)
          let result := r.1 + r.2.1
          if r.2.2 then some (if isNegative then -result else result) else none

/-! ### Claim C5: carry-on-scale semantics -/

/-- Modelled from the spec's words, for comparison with
`textNumberStep`: "every scale word (hundred/thousand/million/billion/
trillion) multiplies the accumulated subtotal and commits it to the
running total before continuing" — that is, `hundred` goes through the
same commit rule as the larger scales instead of the source's
multiply-without-commit special case. -/
def claimTextNumberStep (st : ℚ × ℚ × Bool) (word : String) : ℚ × ℚ × Bool :=
  let (result, current, found) := st
  match onesTable.lookup word with
  | some v => (result, current + v, true)
  | none =>
    match tensTable.lookup word with
    | some v => (result, current + v, true)
    | none =>
      match scalesTable.lookup word with
      | some sc =>
          let current := if current = 0 then 1 else current
          (result + current * sc, 0, true)
      | none =>
        match numericOrdinal word with
        | some v => (result, current + v, true)
        | none =>
          if word ≠ "" ∧ word.data.all Char.isDigit then
            (result, current + (digitsToNat word.data : ℚ), true)
          else (result, current, found)

/-- C5 counterexample: on `"two hundred three thousand"` the code
returns `203000` (because `hundred` multiplies the subtotal without
committing it, so `thousand` later multiplies the full `203`), whereas
the claimed commit-on-every-scale semantics yields
`200 + 3·1000 = 3200`.  The function does not implement the loop the
claim describes. -/
theorem claim_C5_hundred_does_not_commit :
    parseTextNumber "two hundred three thousand" = some 203000 ∧
    (let r := ["two", "hundred", "three", "thousand"].foldl claimTextNumberStep (0, 0, false)
     r.1 + r.2.1 = 3200) ∧
    (203000 : ℚ) ≠ 3200 := ⟨by decide, by decide, by norm_num⟩

/-- C5 amended: the parser composes ones/teens, tens, and hyphenated
compounds left to right; `thousand`/`million`/`billion`/`trillion`
multiply the accumulated subtotal and commit it to the running total,
while `hundred` multiplies the subtotal **without** committing it (so
`"two hundred three thousand"` is `203 · 1000`); a leading
`negative`/`minus`/`-` negates the result, and inputs with no
recognized number words fall back to numeric parsing or `null`.
`"one thousand two hundred"` returns exactly `1200`. -/
theorem claim_C5_text_number_semantics :
    parseTextNumber "one thousand two hundred" = some 1200 ∧
    parseTextNumber "two hundred three thousand" = some 203000 ∧
    parseTextNumber "minus five" = some (-5) ∧
    parseTextNumber "negative twenty-one" = some (-21) ∧
    parseTextNumber "hello world" = none ∧
    parseTextNumber "42.5" = some (85/2) :=
  ⟨by decide, by decide, by decide, by decide, by decide, by decide⟩

/-! ## The Smart Match Engine (claim C8)

The engine scores one unmatched source item against every item of the
opposite unmatched set.  Items are duck-typed in the source; the fields
read by the scorers are collected in `SmartItem`.  `Math.exp` and
`Math.tanh` enter only through the date score and the learning bias;
their values never matter to the claims, so they are taken as
parameters (`dexp`, `dtanh`) of the model. -/

structure SmartItem where
  description : String := ""
  memo : String := ""
  accountDescription : String := ""
  accountNumber : String := ""
  checkNumber : String := ""
  refNumber : String := ""
  date : Option ℚ := none
  amount : ℚ := 0
  amountCredit : ℚ := 0
  amountDebit : ℚ := 0
  debit : ℚ := 0
  credit : ℚ := 0
deriving DecidableEq, Repr

instance : Inhabited SmartItem := ⟨{}⟩

/-- `Math.abs(item.amount || item.amountCredit || item.amountDebit ||
item.debit || item.credit || 0)` of `findSubsetMatches`. -/
def getAmt (item : SmartItem) : ℚ :=
  |jsOrQ item.amount (jsOrQ item.amountCredit (jsOrQ item.amountDebit
    (jsOrQ item.debit (jsOrQ item.credit 0))))|

/-- One subset-sum hit: the indices and items of the combination, their
sum, and its distance from the source amount. -/
structure SubsetMatch where
  indices : List Nat
  items : List SmartItem
  sum : ℚ
  diff : ℚ
deriving DecidableEq, Repr

/-- `findSubsetMatches(sourceAmount, targets, maxItems = 3)`: all
2-way combinations within one percent of the source amount, then all
3-way combinations over the first `min(n, 50)` targets. -/
def findSubsetMatches (sourceAmount : ℚ) (targets : List SmartItem)
    (maxItems : Nat := 3) : List SubsetMatch :=
  let tolerance := sourceAmount * (1/100)
  let n := targets.length
  let pairs := (List.range n).flatMap (fun i =>
    (List.range n).filterMap (fun j =>
      if i < j then
        let sum := getAmt (targets.getD i default) + getAmt (targets.getD j default)
        if |sum - sourceAmount| ≤ tolerance then
          some { indices := [i, j],
                 items := [targets.getD i default, targets.getD j default],
                 sum := sum, diff := |sum - sourceAmount| }
        else none
      else none))
  let cap := min n 50
  let triples :=
    if 3 ≤ maxItems then
      (List.range cap).flatMap (fun i =>
        (List.range cap).flatMap (fun j =>
          (List.range cap).filterMap (fun k =>
            if i < j ∧ j < k then
              let sum := getAmt (targets.getD i default) + getAmt (targets.getD j default) +
                getAmt (targets.getD k default)
              if |sum - sourceAmount| ≤ tolerance then
                some { indices := [i, j, k],
                       items := [targets.getD i default, targets.getD j default,
                                 targets.getD k default],
                       sum := sum, diff := |sum - sourceAmount| }
              else none
            else none)))
    else []
  pairs ++ triples

/-- `calculateAmountScore(sourceAmount, targetAmount)`. -/
def calculateAmountScore (sourceAmount targetAmount : ℚ) : ℚ :=
  let diff := |sourceAmount - targetAmount|
  let pctDiff := if sourceAmount > 0 then diff / sourceAmount
    else if diff = 0 then 0 else 1
  if diff ≤ 1/100 then 1
  else if pctDiff ≤ 1/100 then 85/100
  else if pctDiff ≤ 5/100 then 6/10
  else if pctDiff ≤ 10/100 then 3/10
  else 0

/-- Tokenization of `calculateTextScore`: lowercase, non-alphanumerics
to spaces, split on whitespace, keep tokens longer than two characters,
deduplicate (a JS `Set`). -/
def textTokens (s : String) : List String :=
  (((jsToLower s).data.map (fun c =>
      if ('a' ≤ c ∧ c ≤ 'z') ∨ c.isDigit ∨ c.isWhitespace then c else ' ')).splitOnP
    Char.isWhitespace).map (fun l => (⟨l⟩ : String))
    |>.filter (fun t => 2 < t.length) |>.dedup

/-- `calculateTextScore(sourceDesc, targetDesc)`: Jaccard similarity of
the two token sets. -/
def calculateTextScore (sourceDesc targetDesc : String) : ℚ :=
  if sourceDesc = "" ∨ targetDesc = "" then 0
  else
    let sourceTokens := textTokens sourceDesc
    let targetTokens := textTokens targetDesc
    if sourceTokens.length = 0 ∨ targetTokens.length = 0 then 0
    else
      let shared := (sourceTokens.filter (fun t => t ∈ targetTokens)).length
      let union := ((sourceTokens ++ targetTokens).dedup).length
      if 0 < union then (shared : ℚ) / (union : ℚ) else 0

/-- `calculateDateScore(sourceDate, targetDate, maxDays)`; `dexp`
stands for `Math.exp`, dates are millisecond timestamps. -/
def calculateDateScore (dexp : ℚ → ℚ) (sourceDate targetDate : Option ℚ)
    (maxDays : ℚ) : ℚ :=
  match sourceDate, targetDate with
  | some d1, some d2 =>
      let daysDiff := |d1 - d2| / (1000 * 60 * 60 * 24)
      if daysDiff < 1 then 1
      else
        let halfLife := max maxDays 3 / 2
        max (dexp (-(daysDiff / halfLife))) 0
  | _, _ => 1/4

/-- An accept/deny counter pair of the Learning Store. -/
structure LearnRec where
  accepted : ℤ := 0
  denied : ℤ := 0
deriving DecidableEq, Repr

/-- The three learned-pattern tables, as lookup functions. -/
structure LearningPatterns where
  descToAccount : String → String → Option LearnRec
  amountToAccount : String → String → Option LearnRec
  descToDesc : String → String → Option LearnRec

/-- `normalizeForLearning(str)`. -/
def normalizeForLearning (s : String) : String :=
  collapseSpaces ⟨(jsToLower s).data.map (fun c =>
    if ('a' ≤ c ∧ c ≤ 'z') ∨ c.isDigit ∨ c.isWhitespace then c else ' ')⟩

/-- `amountBucket(amount)`. -/
def amountBucket (amount : ℚ) : String :=
  let a := |amount|
  if a < 100 then "0-100"
  else if a < 500 then "100-500"
  else if a < 1000 then "500-1000"
  else if a < 2000 then "1000-2000"
  else if a < 5000 then "2000-5000"
  else if a < 10000 then "5000-10000"
  else if a < 50000 then "10000-50000"
  else "50000+"

/-- `calculateLearningBias(bankTx, glEntry)`; `dtanh` stands for
`Math.tanh`.  The contribution sum is clamped to `[-0.10, 0.10]`. -/
def calculateLearningBias (dtanh : ℚ → ℚ) (pat : LearningPatterns)
    (bankTx glEntry : SmartItem) : ℚ :=
  let descKey := normalizeForLearning bankTx.description
  let acctKey := jsTrim glEntry.accountNumber
  let glDescKey := normalizeForLearning glEntry.description
  let amtBucket := amountBucket bankTx.amount
  let b1 : ℚ := match pat.descToAccount descKey acctKey with
    | some rec1 => dtanh (((rec1.accepted - rec1.denied : ℤ) : ℚ) * (3/10)) * (6/100)
    | none => 0
  let b2 : ℚ := match pat.amountToAccount amtBucket acctKey with
    | some rec2 => dtanh (((rec2.accepted - rec2.denied : ℤ) : ℚ) * (2/10)) * (2/100)
    | none => 0
  let b3 : ℚ := match pat.descToDesc descKey glDescKey with
    | some rec3 => dtanh (((rec3.accepted - rec3.denied : ℤ) : ℚ) * (3/10)) * (2/100)
    | none => 0
  max (-(10/100)) (min (10/100) (b1 + b2 + b3))

/-- Which side of the reconciliation the user-selected source item
lives on. -/
inductive SourceType where
  | bank
  | gl
deriving DecidableEq, Repr

/-- One smart-match suggestion (the fields the claims and the accept
flow read; the rendered reason chips are presentation). -/
structure Suggestion where
  score : ℚ
  amountScore : ℚ
  textScore : ℚ
  dateScore : ℚ
  refScore : ℚ
  learningBias : ℚ
  targetIndex : Nat := 0
  targetIndices : List Nat := []
  isSplit : Bool
deriving DecidableEq, Repr

instance : Inhabited Suggestion :=
  ⟨{ score := 0, amountScore := 0, textScore := 0, dateScore := 0, refScore := 0,
     learningBias := 0, isSplit := false }⟩

/-- The `Math.abs(sourceItem.amount || sourceItem.amountCredit ||
sourceItem.amountDebit || 0)` of the orchestration. -/
def sourceAmountOf (item : SmartItem) : ℚ :=
  |jsOrQ item.amount (jsOrQ item.amountCredit (jsOrQ item.amountDebit 0))|

/-- `calculateRefScore` reads canonical records; the orchestration
passes the bank-shaped and GL-shaped `SmartItem`s.  This adapter maps
a `SmartItem` pair onto the record fields `calculateRefScore` uses. -/
def refScoreOfItems (bankTx glEntry : SmartItem) : ℚ :=
  calculateRefScore
    { checkNumber := bankTx.checkNumber, description := bankTx.description,
      memo := bankTx.memo }
    { checkNumber := glEntry.checkNumber, refNumber := glEntry.refNumber,
      accountNumber := glEntry.accountNumber, description := glEntry.description }

/-- The five sub-scores and the weighted final score for one
source/target pair of `generateSmartMatchSuggestions`. -/
def smartFinalScore (dexp dtanh : ℚ → ℚ) (pat : LearningPatterns) (st : Settings)
    (srcType : SourceType) (sourceItem target : SmartItem) : ℚ :=
  let sourceAmount := sourceAmountOf sourceItem
  let targetAmount := |jsOrQ target.amount (jsOrQ target.amountCredit
    (jsOrQ target.amountDebit (jsOrQ target.debit (jsOrQ target.credit 0))))|
  let bankTx := match srcType with | .bank => sourceItem | .gl => target
  let glEntry := match srcType with | .bank => target | .gl => sourceItem
  (40/100) * calculateAmountScore sourceAmount targetAmount +
    (20/100) * calculateTextScore (sourceItem.description ++ " " ++ sourceItem.memo)
      (target.description ++ " " ++ target.accountDescription) +
    (15/100) * calculateDateScore dexp sourceItem.date target.date st.dateRange +
    (15/100) * refScoreOfItems bankTx glEntry +
    calculateLearningBias dtanh pat bankTx glEntry

/-- The suggestion record pushed for one kept single-item candidate of
`generateSmartMatchSuggestions`. -/
def mkSingle (dexp dtanh : ℚ → ℚ) (pat : LearningPatterns) (st : Settings)
    (srcType : SourceType) (sourceItem : SmartItem) (p : Nat × SmartItem) : Suggestion :=
  { score := smartFinalScore dexp dtanh pat st srcType sourceItem p.2,
    amountScore := calculateAmountScore (sourceAmountOf sourceItem)
      (|jsOrQ p.2.amount (jsOrQ p.2.amountCredit (jsOrQ p.2.amountDebit
        (jsOrQ p.2.debit (jsOrQ p.2.credit 0))))|),
    textScore := calculateTextScore
      (sourceItem.description ++ " " ++ sourceItem.memo)
      (p.2.description ++ " " ++ p.2.accountDescription),
    dateScore := calculateDateScore dexp sourceItem.date p.2.date st.dateRange,
    refScore := refScoreOfItems
      (match srcType with | .bank => sourceItem | .gl => p.2)
      (match srcType with | .bank => p.2 | .gl => sourceItem),
    learningBias := calculateLearningBias dtanh pat
      (match srcType with | .bank => sourceItem | .gl => p.2)
      (match srcType with | .bank => p.2 | .gl => sourceItem),
    targetIndex := p.1, isSplit := false }

/-- The single-item candidate pass of `generateSmartMatchSuggestions`:
every opposite-side item whose final score reaches `0.40`. -/
def smartSingles (dexp dtanh : ℚ → ℚ) (pat : LearningPatterns) (st : Settings)
    (srcType : SourceType) (sourceItem : SmartItem) (targetItems : List SmartItem) :
    List Suggestion :=
  targetItems.enum.filterMap (fun p =>
    if 40/100 ≤ smartFinalScore dexp dtanh pat st srcType sourceItem p.2 then
      some (mkSingle dexp dtanh pat st srcType sourceItem p)
    else none)

/-- Stable descending-by-score insertion (the model of the JS stable
`sort((a, b) => b.score - a.score)`; only the fact that the result is a
permutation of the input matters to the claims). -/
def insertByScore (s : Suggestion) : List Suggestion → List Suggestion
  | [] => [s]
  | t :: ts => if t.score ≤ s.score then s :: t :: ts else t :: insertByScore s ts

def sortByScoreDesc : List Suggestion → List Suggestion
  | [] => []
  | s :: rest => insertByScore s (sortByScoreDesc rest)

/-- `generateSmartMatchSuggestions` (the pure part): single-item
candidates, subset-sum splits only when no single candidate reaches
`0.85`, each split carrying `min(0.40·0.95 + 0.10, 0.80)`, the whole
list sorted by descending score and cut to the top five. -/
def smartSuggestions (dexp dtanh : ℚ → ℚ) (pat : LearningPatterns) (st : Settings)
    (srcType : SourceType) (sourceItem : SmartItem) (targetItems : List SmartItem) :
    List Suggestion :=
  let sourceAmount := sourceAmountOf sourceItem
  let singles := smartSingles dexp dtanh pat st srcType sourceItem targetItems
  let suggestions :=
    if ¬ singles.any (fun s => 85/100 ≤ s.score) then
      singles ++ (findSubsetMatches sourceAmount targetItems).map (fun sub =>
        { score := min ((40/100) * (95/100) + 10/100) (80/100),
          amountScore := 95/100, textScore := 0, dateScore := 0, refScore := 0,
          learningBias := 0, targetIndices := sub.indices, isSplit := true })
    else singles
  (sortByScoreDesc suggestions).take 5

/-! ### Claim C8: subset-sum completeness and split gating -/

theorem insertByScore_perm (s : Suggestion) (l : List Suggestion) :
    (insertByScore s l).Perm (s :: l) := by
  induction l with
  | nil => exact List.Perm.refl _
  | cons t ts ih =>
      simp only [insertByScore]
      split
      · exact List.Perm.refl _
      · exact ((ih.cons t).trans (List.Perm.swap s t ts))

theorem sortByScoreDesc_perm (l : List Suggestion) :
    (sortByScoreDesc l).Perm l := by
  induction l with
  | nil => exact List.Perm.refl _
  | cons s rest ih =>
      exact (insertByScore_perm s (sortByScoreDesc rest)).trans (ih.cons s)

theorem smartSingles_isSplit_false (dexp dtanh : ℚ → ℚ) (pat : LearningPatterns)
    (st : Settings) (srcType : SourceType) (sourceItem : SmartItem)
    (targetItems : List SmartItem) (s : Suggestion)
    (hs : s ∈ smartSingles dexp dtanh pat st srcType sourceItem targetItems) :
    s.isSplit = false ∧
      s.score = smartFinalScore dexp dtanh pat st srcType sourceItem
        (targetItems.getD s.targetIndex default) := by
  rcases List.mem_filterMap.mp hs with ⟨p, hp, hf⟩
  split at hf
  · injection hf with hf
    subst hf
    refine ⟨rfl, ?_⟩
    have hget : targetItems[p.1]? = some p.2 :=
      List.mem_enum_iff_getElem?.mp hp
    have hgd : targetItems.getD p.1 default = p.2 := by
      simp [List.getD, hget]
    show smartFinalScore dexp dtanh pat st srcType sourceItem p.2 =
      smartFinalScore dexp dtanh pat st srcType sourceItem (targetItems.getD p.1 default)
    rw [hgd]
  · exact absurd hf (by simp)

theorem smartSingles_complete (dexp dtanh : ℚ → ℚ) (pat : LearningPatterns)
    (st : Settings) (srcType : SourceType) (sourceItem : SmartItem)
    (targetItems : List SmartItem) (idx : Nat) (hidx : idx < targetItems.length)
    (hge : 40/100 ≤ smartFinalScore dexp dtanh pat st srcType sourceItem
      (targetItems.getD idx default)) :
    ∃ s ∈ smartSingles dexp dtanh pat st srcType sourceItem targetItems,
      s.score = smartFinalScore dexp dtanh pat st srcType sourceItem
        (targetItems.getD idx default) := by
  have hgd : targetItems.getD idx default = targetItems[idx] := by
    simp [List.getD, List.getElem?_eq_getElem hidx]
  have hget : targetItems[idx]? = some (targetItems.getD idx default) := by
    rw [hgd, List.getElem?_eq_getElem hidx]
  have hmem : mkSingle dexp dtanh pat st srcType sourceItem
      (idx, targetItems.getD idx default) ∈
        smartSingles dexp dtanh pat st srcType sourceItem targetItems :=
    List.mem_filterMap.mpr
      ⟨(idx, targetItems.getD idx default), List.mem_enum_iff_getElem?.mpr hget,
        if_pos hge⟩
  exact ⟨_, hmem, rfl⟩

/-- C8: (a) the 2-way subset-sum search is complete — any two target
indices whose amounts sum to within one percent of the source amount
appear among the results; (b) the smart-match flow surfaces a split
candidate only when no single-item candidate reaches `0.85`; (c) every
split candidate it surfaces carries a score of at most `0.80` (in fact
exactly `min(0.40·0.95 + 0.10, 0.80) = 0.48`). -/
theorem claim_C8_subset_sum_and_split_gating :
    (∀ (S : ℚ) (targets : List SmartItem) (i j : Nat), i < j → j < targets.length →
        |getAmt (targets.getD i default) + getAmt (targets.getD j default) - S| ≤
          S * (1/100) →
        ∃ r ∈ findSubsetMatches S targets, r.indices = [i, j]) ∧
    (∀ (dexp dtanh : ℚ → ℚ) (pat : LearningPatterns) (st : Settings)
        (srcType : SourceType) (sourceItem : SmartItem) (targetItems : List SmartItem)
        (s : Suggestion),
        s ∈ smartSuggestions dexp dtanh pat st srcType sourceItem targetItems →
        s.isSplit = true →
        ∀ idx : Nat, idx < targetItems.length →
          smartFinalScore dexp dtanh pat st srcType sourceItem
            (targetItems.getD idx default) < 85/100) ∧
    (∀ (dexp dtanh : ℚ → ℚ) (pat : LearningPatterns) (st : Settings)
        (srcType : SourceType) (sourceItem : SmartItem) (targetItems : List SmartItem)
        (s : Suggestion),
        s ∈ smartSuggestions dexp dtanh pat st srcType sourceItem targetItems →
        s.isSplit = true → s.score ≤ 80/100) := by
  have hdissect : ∀ (dexp dtanh : ℚ → ℚ) (pat : LearningPatterns) (st : Settings)
      (srcType : SourceType) (sourceItem : SmartItem) (targetItems : List SmartItem)
      (s : Suggestion),
      s ∈ smartSuggestions dexp dtanh pat st srcType sourceItem targetItems →
      s.isSplit = true →
      s.score = min ((40/100) * (95/100) + 10/100) (80/100) ∧
        ¬ (smartSingles dexp dtanh pat st srcType sourceItem targetItems).any
          (fun s' => 85/100 ≤ s'.score) := by
    intro dexp dtanh pat st srcType sourceItem targetItems s hs hsplit
    simp only [smartSuggestions] at hs
    have hs1 : s ∈
        (if ¬ (smartSingles dexp dtanh pat st srcType sourceItem targetItems).any
            (fun s' => 85/100 ≤ s'.score) then
          smartSingles dexp dtanh pat st srcType sourceItem targetItems ++
            (findSubsetMatches (sourceAmountOf sourceItem) targetItems).map (fun sub =>
              { score := min ((40/100) * (95/100) + 10/100) (80/100),
                amountScore := 95/100, textScore := 0, dateScore := 0, refScore := 0,
                learningBias := 0, targetIndices := sub.indices, isSplit := true })
        else smartSingles dexp dtanh pat st srcType sourceItem targetItems) := by
      have hsub := List.take_subset 5 _ hs
      exact (sortByScoreDesc_perm _).subset hsub
    split at hs1
    · rename_i hnone
      rcases List.mem_append.mp hs1 with hmem | hmem
      · have := (smartSingles_isSplit_false _ _ _ _ _ _ _ _ hmem).1
        rw [hsplit] at this
        exact absurd this (by simp)
      · rcases List.mem_map.mp hmem with ⟨sub, _, hsub⟩
        subst hsub
        exact ⟨rfl, hnone⟩
    · rename_i hsome
      have := (smartSingles_isSplit_false _ _ _ _ _ _ _ _ hs1).1
      rw [hsplit] at this
      exact absurd this (by simp)
  refine ⟨?_, ?_, ?_⟩
  · -- (a) completeness of the pair search
    intro S targets i j hij hj hdiff
    refine ⟨{ indices := [i, j],
              items := [targets.getD i default, targets.getD j default],
              sum := getAmt (targets.getD i default) + getAmt (targets.getD j default),
              diff := |getAmt (targets.getD i default) +
                getAmt (targets.getD j default) - S| },
            ?_, rfl⟩
    simp only [findSubsetMatches]
    refine List.mem_append_left _ ?_
    refine List.mem_flatMap.mpr ⟨i, List.mem_range.mpr (lt_trans hij hj), ?_⟩
    refine List.mem_filterMap.mpr ⟨j, List.mem_range.mpr hj, ?_⟩
    dsimp only
    rw [if_pos hij, if_pos hdiff]
  · -- (b) splits appear only when no single-item candidate reaches 0.85
    intro dexp dtanh pat st srcType sourceItem targetItems s hs hsplit idx hidx
    rcases hdissect dexp dtanh pat st srcType sourceItem targetItems s hs hsplit
      with ⟨_, hnone⟩
    by_contra hge
    push_neg at hge
    have h40 : 40/100 ≤ smartFinalScore dexp dtanh pat st srcType sourceItem
        (targetItems.getD idx default) := le_trans (by norm_num) hge
    rcases smartSingles_complete dexp dtanh pat st srcType sourceItem targetItems
      idx hidx h40 with ⟨s', hs', hscore⟩
    exact hnone (List.any_eq_true.mpr ⟨s', hs', by
      rw [hscore]
      exact decide_eq_true hge⟩)
  · -- (c) every surfaced split scores at most 0.80
    intro dexp dtanh pat st srcType sourceItem targetItems s hs hsplit
    rcases hdissect dexp dtanh pat st srcType sourceItem targetItems s hs hsplit
      with ⟨hscore, _⟩
    rw [hscore]
    exact le_trans (min_le_right _ _) (by norm_num)

/-- Witness for C8 at scenario 5: `$150.00` and `$350.25` against a
source of `$500.25` with one-percent tolerance.  The pair is found by
the subset search, the resulting suggestion list surfaces it as a split
scoring `0.48 ≤ 0.80`, and no single-item candidate reaches `0.85`. -/
theorem claim_C8_subset_sum_and_split_gating_witness :
    (∃ r ∈ findSubsetMatches (50025/100)
        [{ amount := 150 }, { amount := 35025/100 }], r.indices = [0, 1]) ∧
    (((smartSuggestions (fun _ => 0) (fun _ => 0)
        ⟨fun _ _ => none, fun _ _ => none, fun _ _ => none⟩
        { dateRange := 7, amountTolerance := 0 } SourceType.gl
        { amount := 50025/100 }
        [{ amount := 150 }, { amount := 35025/100 }]).headD default).score ≤ 80/100) := by
  constructor
  · exact claim_C8_subset_sum_and_split_gating.1 (50025/100)
      [{ amount := 150 }, { amount := 35025/100 }] 0 1
      (by norm_num) (by decide) (by decide)
  · exact claim_C8_subset_sum_and_split_gating.2.2 (fun _ => 0) (fun _ => 0)
      ⟨fun _ _ => none, fun _ _ => none, fun _ _ => none⟩
      { dateRange := 7, amountTolerance := 0 } SourceType.gl
      { amount := 50025/100 }
      [{ amount := 150 }, { amount := 35025/100 }] _ (by decide) (by decide)

/-! ## Unmatching (claim C9)

`unmatchTransaction(matchIdx)` restores the records of one match to the
unmatched sets.  Combined (multi-match) entities wrap the original
records in a `combinedItems` array; the unmatched lists always hold
original records, so an entity is either an original or such a
wrapper. -/

/-- A record as stored on an unmatched list or inside a MatchResult:
either an original item, or the synthetic combined entity built by a
multi-match accept (whose summary fields are presentation and are not
read by `unmatchTransaction`). -/
inductive CEntity (α : Type) where
  | orig : α → CEntity α
  | combined : List (CEntity α) → CEntity α

/-- `entity.combinedItems` as the code tests it (an array is truthy
even when empty; a missing field is `undefined`). -/
def combinedItemsOf {α : Type} : CEntity α → Option (List (CEntity α))
  | .orig _ => none
  | .combined items => some items

/-- The constituent original records of an entity: itself when
original, the wrapped items when combined. -/
def constituents {α : Type} : CEntity α → List (CEntity α)
  | .orig a => [.orig a]
  | .combined items => items

/-- One entry of `matchedTransactions` as `unmatchTransaction` reads
it. -/
structure MatchResultE (α β : Type) where
  bankTransaction : CEntity α
  glEntry : CEntity β
  matchScore : ℚ := 0
  matchType : String := ""
  isManual : Bool := false
  isMultiMatch : Bool := false

/-- The reconciliation state `unmatchTransaction` mutates, with the
process-wide learning store carried alongside to state the frame
condition (the function never touches it). -/
structure ReconState (α β γ : Type) where
  matched : List (MatchResultE α β)
  unmatchedBank : List (CEntity α)
  unmatchedGL : List (CEntity β)
  learning : γ

/-- `unmatchTransaction(matchIdx)` after the user confirms: multi-match
entries push every combined item back to their side and the opposite
single record to the other side, single matches push both records, and
the entry is spliced out of the matched list. -/
def unmatchTransaction {α β γ : Type} (s : ReconState α β γ) (i : Nat)
    (h : i < s.matched.length) : ReconState α β γ :=
  let m := s.matched[i]
  let s1 :=
    if m.isMultiMatch then
      match combinedItemsOf m.bankTransaction with
      | some items =>
          { s with unmatchedBank := s.unmatchedBank ++ items,
                   unmatchedGL := s.unmatchedGL ++ [m.glEntry] }
      | none =>
          match combinedItemsOf m.glEntry with
          | some items =>
              { s with unmatchedGL := s.unmatchedGL ++ items,
                       unmatchedBank := s.unmatchedBank ++ [m.bankTransaction] }
          | none => s
    else
      { s with unmatchedBank := s.unmatchedBank ++ [m.bankTransaction],
               unmatchedGL := s.unmatchedGL ++ [m.glEntry] }
  { s1 with matched := s.matched.eraseIdx i }

/-- A well-formed MatchResult as the accept flows construct them: a
multi-match combines originals on exactly one side with an original on
the other, and a single match pairs two originals. -/
def WellFormedMatch {α β : Type} (m : MatchResultE α β) : Prop :=
  (m.isMultiMatch = true →
    ((∃ items, m.bankTransaction = .combined items ∧ ∃ g, m.glEntry = .orig g) ∨
     (∃ items, m.glEntry = .combined items ∧ ∃ b, m.bankTransaction = .orig b))) ∧
  (m.isMultiMatch = false →
    (∃ b, m.bankTransaction = .orig b) ∧ (∃ g, m.glEntry = .orig g))

/-- C9: unmatching a well-formed MatchResult appends exactly the
constituent records of each side to that side's unmatched list (no
loss, no duplication — the lists grow by precisely the constituents),
removes the entry from the matched list, and leaves the learning store
untouched. -/
theorem claim_C9_unmatch_restores_exactly {α β γ : Type}
    (s : ReconState α β γ) (i : Nat) (h : i < s.matched.length)
    (hwf : WellFormedMatch (s.matched[i])) :
    (unmatchTransaction s i h).unmatchedBank =
      s.unmatchedBank ++ constituents (s.matched[i]).bankTransaction ∧
    (unmatchTransaction s i h).unmatchedGL =
      s.unmatchedGL ++ constituents (s.matched[i]).glEntry ∧
    (unmatchTransaction s i h).matched = s.matched.eraseIdx i ∧
    (unmatchTransaction s i h).learning = s.learning := by
  rcases hwf with ⟨hmulti, hsingle⟩
  by_cases hm : (s.matched[i]).isMultiMatch = true
  · rcases hmulti hm with ⟨items, hbank, g, hgl⟩ | ⟨items, hgl, b, hbank⟩
    · refine ⟨?_, ?_, ?_, ?_⟩ <;>
        simp [unmatchTransaction, hm, hbank, hgl, combinedItemsOf, constituents]
    · refine ⟨?_, ?_, ?_, ?_⟩ <;>
        simp [unmatchTransaction, hm, hbank, hgl, combinedItemsOf, constituents]
  · rcases hsingle (Bool.not_eq_true _ ▸ hm) with ⟨⟨b, hbank⟩, ⟨g, hgl⟩⟩
    refine ⟨?_, ?_, ?_, ?_⟩ <;>
      simp [unmatchTransaction, hm, hbank, hgl, combinedItemsOf, constituents]

/-- Witness for C9 at a concrete two-entry state: unmatching the
multi-match at index 0 expands its two combined GL items back out,
restores the single bank record, and leaves the learning counter
alone. -/
theorem claim_C9_unmatch_restores_exactly_witness :
    (unmatchTransaction
        (α := Nat) (β := Nat) (γ := Nat)
        { matched :=
            [{ bankTransaction := .orig 7,
               glEntry := .combined [.orig 1, .orig 2], isMultiMatch := true }],
          unmatchedBank := [.orig 9], unmatchedGL := [], learning := 42 }
        0 (by decide)).unmatchedBank = [.orig 9, .orig 7] ∧
    (unmatchTransaction
        (α := Nat) (β := Nat) (γ := Nat)
        { matched :=
            [{ bankTransaction := .orig 7,
               glEntry := .combined [.orig 1, .orig 2], isMultiMatch := true }],
          unmatchedBank := [.orig 9], unmatchedGL := [], learning := 42 }
        0 (by decide)).learning = 42 := by
  have h := claim_C9_unmatch_restores_exactly
    (α := Nat) (β := Nat) (γ := Nat)
    { matched :=
        [{ bankTransaction := .orig 7,
           glEntry := .combined [.orig 1, .orig 2], isMultiMatch := true }],
      unmatchedBank := [.orig 9], unmatchedGL := [], learning := 42 }
    0 (by decide)
    ⟨fun _ => Or.inr ⟨[.orig 1, .orig 2], rfl, 7, rfl⟩,
     fun hf => absurd hf (by decide)⟩
  exact ⟨h.1, h.2.2.2⟩
